import Mathlib

/-!
# The spidey HTTP/1.0 server: request pipeline

A shallow embedding of `request.c`, `utilities.c` and `handler.c`.

Conventions of the embedding.

* A byte is a `Char`; a C string (`CStr`) is the list of its bytes before the
  terminating NUL.  A buffer filled by `fgets` may hold NUL bytes; it is turned
  into the C string the string functions see by `cstr`.
* Nullable `char *` fields are `Option CStr`.
* `malloc`, `calloc`, `strdup` and `strndup` are taken to succeed.
* The file system, the peer and the executed scripts are oracles collected in
  `FileSystem`; the globals of `mainServer.c` are collected in `Config`.
* `FILE *` streams bound to a socket are `Stream`s: the bytes still to be
  read, the bytes delivered to the peer, the bytes waiting in the stdio buffer,
  and how the connection takes writes.
-/

namespace Spidey

/-! ## C strings -/

/-- A C string: its bytes before the terminating NUL. -/
abbrev CStr := List Char

/-- The C string held by a byte buffer: everything before the first NUL byte. -/
def cstr (buf : List Char) : CStr :=
  buf.takeWhile (fun c => c ≠ '\x00')

/-- Reading `s[i]`: the byte at index `i`, the terminating NUL at the end. -/
def charAt (s : CStr) (i : Nat) : Char :=
  s.getD i '\x00'

/-- Model of `strncmp(a, b, n)` on unsigned bytes: the end of a string reads as
the byte 0, and a NUL byte inside a list ends the comparison as in C. -/
def strncmp : CStr → CStr → Nat → Int
  | _, _, 0 => 0
  | [], [], _ + 1 => 0
  | [], b :: _, _ + 1 => 0 - (b.toNat : Int)
  | a :: _, [], _ + 1 => (a.toNat : Int)
  | a :: as, b :: bs, n + 1 =>
    if a ≠ b then (a.toNat : Int) - (b.toNat : Int)
    else if a = '\x00' then 0
    else strncmp as bs n

/-- Model of `strcmp(a, b)` on unsigned bytes: the end of a string reads as the
byte 0, and a NUL byte inside a list ends the comparison as in C. -/
def strcmp : CStr → CStr → Int
  | [], [] => 0
  | [], b :: _ => 0 - (b.toNat : Int)
  | a :: _, [] => (a.toNat : Int)
  | a :: as, b :: bs =>
    if a ≠ b then (a.toNat : Int) - (b.toNat : Int)
    else if a = '\x00' then 0
    else strcmp as bs

/-- Model of `strchr(s, c)` for `c ≠ 0`: the index of the first `c` in `s`. -/
def strchr : CStr → Char → Option Nat
  | [], _ => none
  | a :: as, c => if a = c then some 0 else (strchr as c).map (· + 1)

/-- Model of `strrchr(s, c)` for `c ≠ 0`: the index of the last `c` in `s`. -/
def strrchr : CStr → Char → Option Nat
  | [], _ => none
  | a :: as, c =>
    match strrchr as c with
    | some i => some (i + 1)
    | none => if a = c then some 0 else none

/-- Model of `strstr(s, "\r\n")`: the index of the first CR LF pair in `s`. -/
def strstr_crlf : CStr → Option Nat
  | [] => none
  | a :: as =>
    if a = '\r' ∧ as.head? = some '\n' then some 0
    else (strstr_crlf as).map (· + 1)

/-- Model of `isspace` in the C locale. -/
def isspace (c : Char) : Bool :=
  c = ' ' || c = '\t' || c = '\n' || c = '\x0b' || c = '\x0c' || c = '\r'

/-- Model of `tolower` in the C locale. -/
def tolower (c : Char) : Char :=
  if 'A' ≤ c ∧ c ≤ 'Z' then Char.ofNat (c.toNat + 32) else c

/-! ## Configuration, file system and streams -/

/-- The globals of `mainServer.c` the handlers read (listen port, mime-type
table path, default mime type, document root; none of them is ever `NULL`),
with the two libc buffer sizes the code uses, `BUFSIZ` and `PATH_MAX`. -/
structure Config where
  BUFSIZ : Nat
  PATH_MAX : Nat
  Port : CStr
  MimeTypesPath : CStr
  DefaultMimeType : CStr
  RootPath : CStr

/-- The process environment: `(name, value)` pairs, one per name. -/
abbrev Env := List (CStr × CStr)

/-- The operating system as seen by the handlers. -/
structure FileSystem where
  /-- Result of `realpath(path, buf)`: the canonical path, or failure. -/
  realpath : CStr → Option CStr
  /-- Result of `stat(path, &s)`: the `st_mode` of the file, or failure. -/
  stat : CStr → Option Nat
  /-- Whether `access(path, mode) == 0`. -/
  access : CStr → Nat → Bool
  /-- The `d_name`s of a directory in directory order, or failure. -/
  readdir : CStr → Option (List CStr)
  /-- The bytes of a file that `fopen(path, "r")` can open, or failure. -/
  fopen : CStr → Option (List Char)
  /-- The bytes `popen(command, "r")` yields under an environment, or failure. -/
  popen : CStr → Env → Option (List Char)

/-- A stdio stream that `fdopen(fd, "r+")` opened on a connection, as glibc
implements it.

* `input`: the request bytes `fgets` has not taken yet.
* `output`: the bytes delivered to the peer.
* `room`: how the connection takes writes. `none` is a stream that accepts
  every write: each write succeeds and its bytes are delivered. Every path of
  the handlers ends in `fflush`, so buffering cannot be told on such a stream
  and the bytes are shown delivered at once. `some k` is a socket whose peer
  takes `k` more bytes, behind the stdio buffer: written bytes wait in
  `buffer` and go out when the buffer is full or flushed. While no request
  byte is unread and the peer takes what is written (`Stream.sound`), the
  handlers put out on it what they put out on a stream that accepts every
  write.
* `buffer`: the bytes written and not yet flushed (used when `room` is
  `some k`).
* `capacity`: the size of the stdio buffer, the smaller of `BUFSIZ` and the
  block size `fstat` reports for the descriptor: 4096 for a socket on Linux
  with pages of 4096 bytes.
* `total`: the number of bytes the client sent, all taken to have arrived
  before the first read, so that each `read(2)` fills the buffer as far as the
  bytes reach. What `fgets` took is `total` less the length of `input`.
* `flushed`: whether bytes of the buffer went out to the peer already. -/
structure Stream where
  input : List Char
  output : List Char
  room : Option Nat
  buffer : List Char := []
  capacity : Nat := 4096
  total : Nat := input.length
  flushed : Bool := false
deriving DecidableEq

/-- The number of request bytes `fgets` took from the stream. -/
def Stream.taken (f : Stream) : Nat :=
  f.total - f.input.length

/-- The position in the stdio buffer behind the request bytes `fgets` took.
The buffer is filled `capacity` bytes at a time, and reading to its end puts
the position back to its start. -/
def Stream.read_offset (f : Stream) : Nat :=
  f.taken % f.capacity

/-- The number of request bytes that were read into the stdio buffer and that
`fgets` has not taken. -/
def Stream.unread (f : Stream) : Nat :=
  if f.read_offset = 0 then 0 else min f.input.length (f.capacity - f.read_offset)

/-- The free room of the stdio buffer. Until bytes of it went out, the bytes
written are stored from the read position on (`_IO_new_file_overflow` sets the
write pointer to the read pointer); afterwards from the start of the buffer. -/
def Stream.space (f : Stream) : Nat :=
  f.capacity - (if f.flushed then 0 else f.read_offset) - f.buffer.length

/-- What stdio does to put `data` on the descriptor (`new_do_write` of glibc):
returns how many bytes went out. With request bytes unread in the buffer of the
`r+` stream it first seeks back over them, which a socket refuses (`ESPIPE`):
nothing is written and the buffer stays as it is. Else `write(2)` is called
until the bytes are out or the peer takes no more, and the buffer is reset. -/
def Stream.send (f : Stream) (data : List Char) : Nat × Stream :=
  match f.room with
  | none => (data.length, { f with output := f.output ++ data })
  | some k =>
    if f.unread ≠ 0 then (0, f)
    else
      (min k data.length,
        { f with output := f.output ++ data.take k, room := some (k - data.length),
                 buffer := [], flushed := true })

/-- Flushing the stdio buffer: `true` when all of it went out. An empty buffer
is flushed without touching the descriptor. -/
def Stream.flush (f : Stream) : Bool × Stream :=
  match f.room with
  | none => (true, f)
  | some _ =>
    if f.buffer = [] then (true, f)
    else
      match f.send f.buffer with
      | (n, f1) => (n = f.buffer.length, f1)

/-- Writing bytes to a stream (`_IO_new_file_xsputn` of glibc): returns how
many were taken. Bytes that fit the free room of the buffer are stored there
and all count as written. Else the buffer is filled and flushed; when the flush
fails the bytes stored so far are the count. After a flush that succeeded the
whole blocks of what is left are put on the descriptor directly and the rest is
stored in the buffer. -/
def Stream.write (f : Stream) (data : List Char) : Nat × Stream :=
  match f.room with
  | none => (data.length, { f with output := f.output ++ data })
  | some _ =>
    if data.length ≤ f.space then (data.length, { f with buffer := f.buffer ++ data })
    else
      match Stream.flush { f with buffer := f.buffer ++ data.take f.space } with
      | (false, f1) => (f.space, f1)
      | (true, f1) =>
        let rest := data.drop f.space
        let direct :=
          if 128 ≤ f.capacity then rest.length - rest.length % f.capacity else rest.length
        match f1.send (rest.take direct) with
        | (n, f2) =>
          if n < direct then (f.space + n, f2)
          else (data.length, { f2 with buffer := rest.drop direct })

/-- Model of `fprintf(f, ...)` with the formatted text `text`; the result of the
call is dropped, as everywhere in the source. -/
def fprintf (f : Stream) (text : List Char) : Stream :=
  (f.write text).2

/-- Model of `fwrite(data, 1, n, f)` with `n = data.length`. -/
def fwrite (data : List Char) (f : Stream) : Nat × Stream :=
  f.write data

/-- Model of `fflush(f)`; the result of the call is dropped, as everywhere in
the source. -/
def fflush (f : Stream) : Stream :=
  f.flush.2

/-- The bytes one `fgets` takes from the pending input: at most `n`, stopping
after a newline. Returns them with the input left. -/
def fgets_take : Nat → List Char → List Char × List Char
  | 0, rest => ([], rest)
  | _ + 1, [] => ([], [])
  | n + 1, c :: cs =>
    if c = '\n' then ([c], cs)
    else ((fgets_take n cs).1.cons c, (fgets_take n cs).2)

/-- Model of `fgets(buf, size, f)`: `none` at end of input, else the bytes
stored in `buf` (at most `size - 1`) and the input left. -/
def fgets (size : Nat) (input : List Char) : Option (List Char × List Char) :=
  if size = 0 then none
  else if input = [] then none
  else some (fgets_take (size - 1) input)

/-! ## The request model -/

/-- Modelled from the spec: `http_status` of `mainServer.h`, with the four
constants `http_status_string` switches on. -/
inductive http_status where
  | HTTP_STATUS_OK
  | HTTP_STATUS_BAD_REQUEST
  | HTTP_STATUS_NOT_FOUND
  | HTTP_STATUS_INTERNAL_SERVER_ERROR
deriving DecidableEq, Repr

/-- Modelled from the spec: `request_type` of `mainServer.h`, the four
classifications `determine_request_type` returns. -/
inductive request_type where
  | REQUEST_BROWSE
  | REQUEST_FILE
  | REQUEST_CGI
  | REQUEST_BAD
deriving DecidableEq, Repr

/-- Modelled from the spec: `struct header` of `mainServer.h`, one node of the
request's header list (the `next` link is the list structure). -/
structure header where
  name : CStr
  value : CStr
deriving DecidableEq, Repr

/-- Modelled from the spec: `struct request` of `mainServer.h`, with the fields
`request.c` and `handler.c` use. `fd` is left out: it only backs `file`. -/
structure request where
  file : Stream
  method : Option CStr
  uri : Option CStr
  path : Option CStr
  query : Option CStr
  headers : List header
  host : CStr
  port : CStr
deriving DecidableEq

/-- The response generators, for the call record of a process. -/
inductive Generator where
  | browse
  | file
  | cgi
  | error (status : http_status)
deriving DecidableEq, Repr

/-- State of the serving process outside the request: its environment, and two
records no function reads (instrumentation only): the response generators
entered so far, and the status of every status line printed so far, that is of
every executed `fprintf(r->file, "HTTP/1.0 %s\r\n", ...)`, whether or not the
peer took all of its bytes. -/
structure Process where
  env : Env
  calls : List Generator
  status_lines : List http_status
deriving DecidableEq

/-- Model of `accept_request` once `accept` and `fdopen` succeeded: a zeroed
request on the connection's stream; `peer` is what `getnameinfo` found. -/
def accept_request (conn : Stream) (peer : Option (CStr × CStr)) : request :=
  { file := conn, method := none, uri := none, path := none, query := none,
    headers := [],
    host := match peer with
      | some p => p.1
      | none => [],
    port := match peer with
      | some p => p.2
      | none => [] }

/-! ## request.c -/

/-- One `%s` conversion of `sscanf`: skip white space, then take the bytes up
to the next white space. `none` when the input ends before a byte is taken.
Returns the token and the input left. -/
def scan_token (s : CStr) : Option (CStr × CStr) :=
  match s.dropWhile isspace with
  | [] => none
  | c :: cs =>
    some ((c :: cs).takeWhile (fun x => !isspace x),
          (c :: cs).dropWhile (fun x => !isspace x))

/-- Model of `sscanf(line, "%s %s %s", method, uri, version)`: the number of
conversions made (`-1`, the value of `EOF`, when the input ends before the
first) and the three buffers. A buffer that is not written is shown empty. -/
def sscanf_sss (line : CStr) : Int × CStr × CStr × CStr :=
  match scan_token line with
  | none => (-1, [], [], [])
  | some (m, r1) =>
    match scan_token r1 with
    | none => (1, m, [], [])
    | some (u, r2) =>
      match scan_token r2 with
      | none => (2, m, u, [])
      | some (v, _) => (3, m, u, v)

/-- Model of `parse_request_method`: returns 0 or -1 with the updated request. -/
def parse_request_method (cfg : Config) (r : request) : Int × request :=
  /- Read line from socket -/
  match fgets cfg.BUFSIZ r.file.input with
  | none => (-1, r)
  | some (buf, rest) =>
    let r1 := { r with file := { r.file with input := rest } }
    let line := cstr buf
    /- Trim CRLF -/
    let line :=
      match strstr_crlf line with
      | some i => line.take i
      | none =>
        match strchr line '\n' with
        | some i => line.take i
        | none => line
    /- Parse method and uri -/
    match sscanf_sss line with
    | (n, method, uri, _) =>
      if n ≠ 3 then (-1, r1)
      else
        /- Parse query from uri -/
        match strchr uri '?' with
        | some q =>
          (0, { r1 with method := some method, uri := some (uri.take q),
                        query := some (uri.drop (q + 1)) })
        | none =>
          (0, { r1 with method := some method, uri := some uri, query := some [] })

/-- The bytes a header name or value keeps: leading and trailing spaces and
tabs are dropped, as the two pairs of `while` loops do. -/
def trim_blank (s : CStr) : CStr :=
  (s.dropWhile (fun c => c = ' ' || c = '\t')).rdropWhile (fun c => c = ' ' || c = '\t')

/-- The loop of `parse_request_headers`; `fuel` bounds the iterations and the
function returns -1 only if it runs out (the wrapper gives enough). -/
def parse_request_headers_loop (cfg : Config) : Nat → request → Int × request
  | 0, r => (-1, r)
  | fuel + 1, r =>
    match fgets cfg.BUFSIZ r.file.input with
    | none => (0, r)
    | some (buf, rest) =>
      let r1 := { r with file := { r.file with input := rest } }
      /- Strip trailing CRLF -/
      let buffer := (cstr buf).rdropWhile (fun c => c = '\n' || c = '\r')
      /- Empty line marks end of headers -/
      if buffer.length = 0 then (0, r1)
      else
        /- Split on first ':' -/
        match strchr buffer ':' with
        | none => parse_request_headers_loop cfg fuel r1
        | some colon =>
          let name := trim_blank (buffer.take colon)
          let value := trim_blank (buffer.drop (colon + 1))
          /- Append to list -/
          parse_request_headers_loop cfg fuel
            { r1 with headers := r1.headers ++ [{ name := name, value := value }] }

/-- Model of `parse_request_headers`: returns 0 or -1 with the updated request.
Every iteration but the last takes at least one byte from the input. The list
is appended to through the local `curr`, which is right for the empty list
`accept_request` leaves. -/
def parse_request_headers (cfg : Config) (r : request) : Int × request :=
  parse_request_headers_loop cfg (r.file.input.length + 1) r

/-- Model of `parse_request`: returns 0 or -1 with the updated request. -/
def parse_request (cfg : Config) (r : request) : Int × request :=
  /- Parse HTTP Request Method -/
  match parse_request_method cfg r with
  | (rc, r1) =>
    if rc < 0 then (-1, r1)
    else
      let r2 :=
        match r1.uri with
        | some uri =>
          match strchr uri '?' with
          | some q => { r1 with path := some (uri.take q), query := some (uri.drop (q + 1)) }
          | none => { r1 with path := some uri }
        | none => r1
      /- Parse HTTP Request Headers -/
      match parse_request_headers cfg r2 with
      | (rc2, r3) => if rc2 < 0 then (-1, r3) else (0, r3)

/-! ## utilities.c -/

/-- The comparison of `determine_mimetype`: the extension and a table token
are equal up to the case of ASCII letters. -/
def same_ext : CStr → CStr → Bool
  | [], [] => true
  | e :: es, t :: ts => if tolower e ≠ tolower t then false else same_ext es ts
  | _, _ => false

/-- The tokens successive calls of `strtok(p, " \t\r\n")` return. -/
def strtok_list (p : CStr) : List CStr :=
  (p.splitOnP (fun c => c = ' ' || c = '\t' || c = '\r' || c = '\n')).filter
    (fun t => t ≠ [])

/-- The scan of the mime-type table in `determine_mimetype`: the mime type of
the first rule naming the extension. `fuel` bounds the lines read (`BUFSIZ` is
at least 2, so every `fgets` takes a byte). -/
def mimetype_scan (cfg : Config) (ext : CStr) : Nat → List Char → Option CStr
  | 0, _ => none
  | fuel + 1, input =>
    match fgets cfg.BUFSIZ input with
    | none => none
    | some (buf, rest) =>
      /- skip leading whitespace -/
      let p := (cstr buf).dropWhile isspace
      /- ignore comments/blank lines -/
      if charAt p 0 = '#' ∨ charAt p 0 = '\x00' ∨ charAt p 0 = '\n' then
        mimetype_scan cfg ext fuel rest
      else
        /- first token is mimetype; rest are extensions -/
        match strtok_list p with
        | [] => mimetype_scan cfg ext fuel rest
        | mt :: exts =>
          if exts.any (same_ext ext) then some mt
          else mimetype_scan cfg ext fuel rest

/-- Model of `determine_mimetype`. -/
def determine_mimetype (cfg : Config) (fs : FileSystem) (path : CStr) : CStr :=
  /- Find file extension -/
  match strrchr path '.' with
  | none => cfg.DefaultMimeType
  | some dot =>
    let ext := path.drop (dot + 1)
    if ext = [] then cfg.DefaultMimeType
    else
      /- Open MimeTypesPath file -/
      match fs.fopen cfg.MimeTypesPath with
      | none => cfg.DefaultMimeType
      | some table =>
        /- Scan file for matching file extensions -/
        match mimetype_scan cfg ext (table.length + 1) table with
        | some mt => mt
        | none => cfg.DefaultMimeType

/-- The text `determine_request_path` prints into `path` with `snprintf`:
`RootPath`, a `/`, and the uri without its leading `/`. -/
def request_join (cfg : Config) (uri : Option CStr) : CStr :=
  let u : CStr :=
    match uri with
    | some s => s
    | none => ['/']
  let u := if charAt u 0 = '/' then u.drop 1 else u
  cfg.RootPath ++ '/' :: u

/-- Model of `determine_request_path`: `none` is the `NULL` result. -/
def determine_request_path (cfg : Config) (fs : FileSystem) (uri : Option CStr) :
    Option CStr :=
  /- Build candidate filesystem path: RootPath + '/' + uri (skip leading '/') -/
  let path := request_join cfg uri
  if path.length ≥ cfg.BUFSIZ then none
  else
    /- Resolve to realpath -/
    match fs.realpath path with
    | none => none
    | some real =>
      /- Security check: real path must begin with RootPath -/
      let rootlen := cfg.RootPath.length
      if strncmp real cfg.RootPath rootlen ≠ 0 then none
      else if charAt real rootlen ≠ '\x00' ∧ charAt real rootlen ≠ '/' then none
      else some real

/-- The file-type mask `S_IFMT` of `sys/stat.h`. -/
def S_IFMT : Nat := 0o170000

/-- Model of `S_ISDIR(m)`. -/
def S_ISDIR (m : Nat) : Bool := m &&& S_IFMT = 0o040000

/-- Model of `S_ISREG(m)`. -/
def S_ISREG (m : Nat) : Bool := m &&& S_IFMT = 0o100000

/-- The `access` mode `X_OK` of `unistd.h`. -/
def X_OK : Nat := 1

/-- The `access` mode `R_OK` of `unistd.h`. -/
def R_OK : Nat := 4

open request_type in
/-- Model of `determine_request_type`. -/
def determine_request_type (fs : FileSystem) (path : CStr) : request_type :=
  match fs.stat path with
  | none => REQUEST_BAD
  | some st_mode =>
    if S_ISDIR st_mode then REQUEST_BROWSE
    else if S_ISREG st_mode ∧ fs.access path X_OK then REQUEST_CGI
    else if S_ISREG st_mode ∧ fs.access path R_OK then REQUEST_FILE
    else REQUEST_BAD

open http_status in
/-- Model of `http_status_string`. -/
def http_status_string : http_status → CStr
  | HTTP_STATUS_OK => "200 OK".toList
  | HTTP_STATUS_BAD_REQUEST => "400 Bad Request".toList
  | HTTP_STATUS_NOT_FOUND => "404 Not Found".toList
  | HTTP_STATUS_INTERNAL_SERVER_ERROR => "500 Internal Server Error".toList

/-! ## handler.c -/

open http_status in
/-- Model of `handle_error`. -/
def handle_error (p : Process) (r : request) (status : http_status) :
    http_status × Process × request :=
  let p := { p with calls := p.calls ++ [Generator.error status],
                    status_lines := p.status_lines ++ [status] }
  let status_string := http_status_string status
  let target : CStr :=
    match r.uri with
    | some uri => uri
    | none => ['/']
  /- Write HTTP Header -/
  let f := fprintf r.file ("HTTP/1.0 ".toList ++ status_string ++ "\r\n".toList)
  let f := fprintf f "Content-Type: text/html\r\n".toList
  let f := fprintf f "\r\n".toList
  /- Write HTML Description of Error -/
  let f := fprintf f
    ("<html><head><title>".toList ++ status_string ++ "</title></head><body>\n".toList)
  let f := fprintf f ("<h1>".toList ++ status_string ++ "</h1>\n".toList)
  let f := fprintf f
    ("<p>The requested URL ".toList ++ target ++ " resulted in an error.</p>\n".toList)
  let f := fprintf f "</body></html>\n".toList
  let f := fflush f
  /- Return specified status -/
  (status, p, { r with file := f })

/-- Model of `alphasort`: `strcoll` on the two names, which is `strcmp` in the
C locale the server runs in (it never calls `setlocale`). -/
def alphasort (a b : CStr) : Int :=
  strcmp a b

/-- Model of `scandir(path, &entries, NULL, alphasort)`: every entry of the
directory, sorted with the comparison function; `none` is a negative result. -/
def scandir (fs : FileSystem) (path : CStr) : Option (List CStr) :=
  (fs.readdir path).map (List.insertionSort (fun a b => alphasort a b ≤ 0))

/-- The text of the hyperlink `handle_browse_request` prints for the entry
`name`: the two arguments `base` and `need_slash ? "/" : ""` of its `fprintf`,
followed by `name`. -/
def browse_link (uri : Option CStr) (name : CStr) : CStr :=
  /- Build link: r->uri + '/' + name (avoid double slashes) -/
  let base : CStr :=
    match uri with
    | some (c :: cs) => c :: cs
    | _ => ['/']
  let need_slash : Bool := charAt base (base.length - 1) ≠ '/'
  base ++ (if need_slash then ['/'] else []) ++ name

/-- One iteration of the `for` loop of `handle_browse_request`. -/
def browse_entry (uri : Option CStr) (f : Stream) (name : CStr) : Stream :=
  /- Skip . and .. -/
  if strcmp name ['.'] = 0 ∨ strcmp name ['.', '.'] = 0 then f
  else
    fprintf f ("<li><a href=\"".toList ++ browse_link uri name ++ "\">".toList ++ name
      ++ "</a></li>\n".toList)

open http_status in
/-- Model of `handle_browse_request`. A `NULL` path counts as a directory that
cannot be scanned. -/
def handle_browse_request (fs : FileSystem) (p : Process) (r : request) :
    http_status × Process × request :=
  let p := { p with calls := p.calls ++ [Generator.browse] }
  /- Open a directory for reading or scanning -/
  match r.path.bind (scandir fs) with
  | none => handle_error p r HTTP_STATUS_NOT_FOUND
  | some entries =>
    let shown : CStr :=
      match r.uri with
      | some uri => uri
      | none => ['/']
    /- Write HTTP Header with OK Status and text/html Content-Type -/
    let p := { p with status_lines := p.status_lines ++ [HTTP_STATUS_OK] }
    let f := fprintf r.file
      ("HTTP/1.0 ".toList ++ http_status_string HTTP_STATUS_OK ++ "\r\n".toList)
    let f := fprintf f "Content-Type: text/html\r\n".toList
    let f := fprintf f "\r\n".toList
    /- For each entry in directory, emit HTML list item -/
    let f := fprintf f
      ("<html><head><title>Index of ".toList ++ shown ++ "</title></head><body>\n".toList)
    let f := fprintf f ("<h1>Index of ".toList ++ shown ++ "</h1>\n<ul>\n".toList)
    let f := entries.foldl (browse_entry r.uri) f
    let f := fprintf f "</ul>\n</body></html>\n".toList
    /- Flush socket, return OK -/
    let f := fflush f
    (HTTP_STATUS_OK, p, { r with file := f })

/-- The copy loop shared by `handle_file_request` and `handle_cgi_request`:
`fread` a chunk of at most `BUFSIZ` bytes from `src`, `fwrite` it, until a read
returns no byte (result `true`) or a write is short (result `false`). `fuel`
bounds the iterations; every iteration but the last takes a byte. -/
def copy_chunks (cfg : Config) : Nat → List Char → Stream → Bool × Stream
  | 0, _, f => (true, f)
  | fuel + 1, src, f =>
    let chunk := src.take cfg.BUFSIZ
    if chunk.length = 0 then (true, f)
    else
      match fwrite chunk f with
      | (written, f1) =>
        if written ≠ chunk.length then (false, f1)
        else copy_chunks cfg fuel (src.drop cfg.BUFSIZ) f1

open http_status in
/-- Model of `handle_file_request`. A `NULL` path counts as a file that cannot
be opened. -/
def handle_file_request (cfg : Config) (fs : FileSystem) (p : Process) (r : request) :
    http_status × Process × request :=
  let p := { p with calls := p.calls ++ [Generator.file] }
  /- Open file for reading -/
  match r.path with
  | none => handle_error p r HTTP_STATUS_NOT_FOUND
  | some path =>
    match fs.fopen path with
    | none => handle_error p r HTTP_STATUS_NOT_FOUND
    | some content =>
      /- Determine mimetype -/
      let mimetype := determine_mimetype cfg fs path
      /- Write HTTP Headers with OK status and determined Content-Type -/
      let p := { p with status_lines := p.status_lines ++ [HTTP_STATUS_OK] }
      let f := fprintf r.file
        ("HTTP/1.0 ".toList ++ http_status_string HTTP_STATUS_OK ++ "\r\n".toList)
      let f := fprintf f ("Content-Type: ".toList ++ mimetype ++ "\r\n".toList)
      let f := fprintf f "\r\n".toList
      /- Read from file and write to socket in chunks -/
      match copy_chunks cfg (content.length + 1) content f with
      | (false, f1) =>
        handle_error p { r with file := f1 } HTTP_STATUS_INTERNAL_SERVER_ERROR
      | (true, f1) =>
        /- Close file, flush socket, deallocate mimetype, return OK -/
        (HTTP_STATUS_OK, p, { r with file := fflush f1 })

/-- Model of `setenv(name, value, 1)`: fails, changing nothing, on an empty
name or a name holding `=`; else sets or replaces the variable. -/
def setenv (env : Env) (name value : CStr) : Env :=
  if name = [] ∨ '=' ∈ name then env
  else if env.any (fun kv => kv.1 = name) then
    env.map (fun kv => if kv.1 = name then (name, value) else kv)
  else env ++ [(name, value)]

/-- Model of `getenv(name)`: the value of the first variable named `name`. -/
def getenv (env : Env) (name : CStr) : Option CStr :=
  (env.find? (fun kv => kv.1 = name)).map (fun kv => kv.2)

/-- What the inner `for` loop of `handle_cgi_request` does to one byte of the
header name: lower-case ASCII letters go to upper case, then `-` goes to `_`. -/
def cgi_env_char (c : Char) : Char :=
  let c1 := if 'a' ≤ c ∧ c ≤ 'z' then Char.ofNat (c.toNat - 32) else c
  if c1 = '-' then '_' else c1

/-- The loop of `handle_cgi_request` over the request headers. -/
def export_headers (cfg : Config) : List header → Env → Env
  | [], env => env
  | h :: hs, env =>
    /- Build env name: HTTP_<NAME>, uppercase, '-' -> '_' -/
    let n := 5 + h.name.length
    if n ≥ cfg.PATH_MAX then export_headers cfg hs env
    else
      export_headers cfg hs
        (setenv env ("HTTP_".toList ++ h.name.map cgi_env_char) h.value)

/-- The first part of the environment set-up of `handle_cgi_request`, lines
195 to 204: the variables of the request, the server and the client. -/
def cgi_request_variables (cfg : Config) (env : Env) (r : request) : Env :=
  /- Export CGI environment variables from request -/
  let env :=
    match r.method with
    | some m => setenv env "REQUEST_METHOD".toList m
    | none => env
  let env :=
    match r.uri with
    | some u => setenv env "REQUEST_URI".toList u
    | none => env
  let env :=
    match r.path with
    | some q => setenv env "SCRIPT_FILENAME".toList q
    | none => env
  let env :=
    setenv env "QUERY_STRING".toList
      (match r.query with
        | some q => q
        | none => [])
  /- Server and client info -/
  let env := setenv env "DOCUMENT_ROOT".toList cfg.RootPath
  let env := setenv env "SERVER_PORT".toList cfg.Port
  let env := if charAt r.host 0 ≠ '\x00' then setenv env "REMOTE_ADDR".toList r.host else env
  let env := if charAt r.port 0 ≠ '\x00' then setenv env "REMOTE_PORT".toList r.port else env
  env

/-- The environment set-up of `handle_cgi_request`, lines 195 to 221: the
variables of the request, the server and the client, then those of the request
headers. -/
def cgi_environment (cfg : Config) (env : Env) (r : request) : Env :=
  /- Export CGI environment variables from request headers -/
  export_headers cfg r.headers (cgi_request_variables cfg env r)

open http_status in
/-- Model of `handle_cgi_request`. A `NULL` path counts as a command that
cannot be launched. -/
def handle_cgi_request (cfg : Config) (fs : FileSystem) (p : Process) (r : request) :
    http_status × Process × request :=
  let p := { p with calls := p.calls ++ [Generator.cgi] }
  let p := { p with env := cgi_environment cfg p.env r }
  /- POpen CGI Script -/
  match r.path.bind (fun path => fs.popen path p.env) with
  | none => handle_error p r HTTP_STATUS_INTERNAL_SERVER_ERROR
  | some out =>
    let p := { p with status_lines := p.status_lines ++ [HTTP_STATUS_OK] }
    let f := fprintf r.file
      ("HTTP/1.0 ".toList ++ http_status_string HTTP_STATUS_OK ++ "\r\n".toList)
    /- Copy data from popen to socket -/
    match copy_chunks cfg (out.length + 1) out f with
    | (false, f1) =>
      handle_error p { r with file := f1 } HTTP_STATUS_INTERNAL_SERVER_ERROR
    | (true, f1) =>
      /- Close popen, flush socket, return OK -/
      (HTTP_STATUS_OK, p, { r with file := fflush f1 })

open http_status request_type in
/-- Model of `handle_request`. -/
def handle_request (cfg : Config) (fs : FileSystem) (p : Process) (r : request) :
    http_status × Process × request :=
  /- Parse request -/
  match parse_request cfg r with
  | (rc, r1) =>
    if rc < 0 then handle_error p r1 HTTP_STATUS_BAD_REQUEST
    else
      /- Determine request path -/
      match determine_request_path cfg fs r1.uri with
      | none => handle_error p r1 HTTP_STATUS_NOT_FOUND
      | some real =>
        let r2 := { r1 with path := some real }
        /- Dispatch to appropriate request handler type -/
        match determine_request_type fs real with
        | REQUEST_BROWSE => handle_browse_request fs p r2
        | REQUEST_FILE => handle_file_request cfg fs p r2
        | REQUEST_CGI => handle_cgi_request cfg fs p r2
        | REQUEST_BAD => handle_error p r2 HTTP_STATUS_NOT_FOUND

/-! ## Concrete configurations, file systems and requests for the examples -/

/-- The document root `/srv/www` with the buffer sizes of glibc. -/
def cfg_www : Config :=
  { BUFSIZ := 8192, PATH_MAX := 4096, Port := "9898".toList,
    MimeTypesPath := "/etc/mime.types".toList,
    DefaultMimeType := "text/plain".toList, RootPath := "/srv/www".toList }

/-- The entries of the directory `/srv/www` of the examples, in the order the
directory holds them. -/
def www_entries : List CStr :=
  ["index.html".toList, "..".toList, "fifo".toList, ".".toList, "hello.cgi".toList,
   "locked".toList, "README".toList, "docs".toList, "empty".toList, "env.cgi".toList]

/-- A small file system around `/srv/www`: the directory `/srv/www` with the
files `index.html` (readable), `hello.cgi` and `env.cgi` (executable; the
second prints the variable `HTTP_X_TOKEN` of its environment), `locked`
(neither readable nor executable), `README` and `fifo` (a named pipe), the directory `docs` holding
`a.txt`, the empty directory `empty`, and files outside `/srv/www` that
traversal paths canonicalise to. -/
def fs_www : FileSystem :=
  { realpath := fun p =>
      if p = "/srv/www/".toList then some "/srv/www".toList
      else if p = "/srv/www/index.html".toList then some "/srv/www/index.html".toList
      else if p = "/srv/www/fifo".toList then some "/srv/www/fifo".toList
      else if p = "/srv/www/hello.cgi".toList then some "/srv/www/hello.cgi".toList
      else if p = "/srv/www/locked".toList then some "/srv/www/locked".toList
      else if p = "/srv/www/env.cgi".toList then some "/srv/www/env.cgi".toList
      else if p = "/srv/www/docs".toList then some "/srv/www/docs".toList
      else if p = "/srv/www/docs/".toList then some "/srv/www/docs".toList
      else if p = "/srv/www/empty".toList then some "/srv/www/empty".toList
      else if p = "/srv/www/../www2/secret".toList then some "/srv/www2/secret".toList
      else if p = "/srv/www/../../etc/passwd".toList then some "/etc/passwd".toList
      else none,
    stat := fun p =>
      if p = "/srv/www".toList then some 0o040755
      else if p = "/srv/www/index.html".toList then some 0o100644
      else if p = "/srv/www/fifo".toList then some 0o010644
      else if p = "/srv/www/hello.cgi".toList then some 0o100755
      else if p = "/srv/www/locked".toList then some 0o100000
      else if p = "/srv/www/env.cgi".toList then some 0o100755
      else if p = "/srv/www/docs".toList then some 0o040755
      else if p = "/srv/www/empty".toList then some 0o040755
      else if p = "/srv/www2/secret".toList then some 0o100644
      else if p = "/etc/passwd".toList then some 0o100644
      else none,
    access := fun p m =>
      (p = "/srv/www/index.html".toList ∧ m = R_OK) ∨ (p = "/srv/www".toList) ∨
        (p = "/srv/www/hello.cgi".toList) ∨ (p = "/srv/www/env.cgi".toList),
    readdir := fun p =>
      if p = "/srv/www".toList then
        some www_entries
      else if p = "/srv/www/docs".toList then
        some ["a.txt".toList, ".".toList, "..".toList]
      else if p = "/srv/www/empty".toList then some ["..".toList, ".".toList]
      else none,
    fopen := fun p =>
      if p = "/srv/www/index.html".toList then some "<p>hi</p>\n".toList
      else if p = "/etc/mime.types".toList then some "text/html html htm\n".toList
      else none,
    popen := fun p env =>
      if p = "/srv/www/hello.cgi".toList then
        some "Content-Type: text/plain\r\n\r\nhello\n".toList
      else if p = "/srv/www/env.cgi".toList then
        some ("Content-Type: text/plain\r\n\r\ntoken=".toList ++
          (match getenv env "HTTP_X_TOKEN".toList with
            | some v => v
            | none => []))
      else none }

/-- A fresh request on a connection that sent `text` and accepts every write. -/
def request_of (text : String) : request :=
  accept_request { input := text.toList, output := [], room := none } none

/-- A process with an empty environment that has entered no generator and
printed no status line. -/
def fresh_process : Process :=
  { env := [], calls := [], status_lines := [] }

/-! ## Notions the statements use -/

/-- The white-space separated tokens of a line: the non-empty pieces between
white-space bytes. -/
def tokens (s : CStr) : List CStr :=
  (s.splitOnP isspace).filter (fun t => t ≠ [])

/-- The text of `s` before its first `c`; all of `s` when it holds no `c`. -/
def before_first (c : Char) (s : CStr) : CStr :=
  s.takeWhile (fun x => x ≠ c)

/-- The text of `s` after its first `c`; empty when it holds no `c`. -/
def after_first (c : Char) (s : CStr) : CStr :=
  (s.dropWhile (fun x => x ≠ c)).drop 1

/-- The byte stream that carries the lines `ls`, each followed by CR LF. -/
def header_stream (ls : List CStr) : List Char :=
  (ls.map (fun l => l ++ ['\r', '\n'])).flatten

/-- The header list the lines `ls` stand for: of the lines before the first
empty one, those holding `:`, each split at its first `:` into a name and a
value with the spaces and tabs around them removed. -/
def headers_of_lines (ls : List CStr) : List header :=
  ((ls.takeWhile (fun l => l ≠ [])).filter (fun l => ':' ∈ l)).map
    (fun l => { name := trim_blank (before_first ':' l),
                value := trim_blank (after_first ':' l) })

/-- The header lines of the example for C5. -/
def example_lines : List CStr :=
  ["Host: a".toList, "no colon here".toList, "X-Test:   value  ".toList,
   "Host: b".toList, [], "Later: line".toList]

/-- The error response for the text `reason` ("<code> <reason>") and the shown
request target `target`: status line, content type, blank line, and an HTML
page with `reason` as title and heading and one line naming `target`. -/
def error_page (reason target : CStr) : List Char :=
  "HTTP/1.0 ".toList ++ reason ++ "\r\n".toList ++
  "Content-Type: text/html\r\n".toList ++
  "\r\n".toList ++
  "<html><head><title>".toList ++ reason ++ "</title></head><body>\n".toList ++
  "<h1>".toList ++ reason ++ "</h1>\n".toList ++
  "<p>The requested URL ".toList ++ target ++ " resulted in an error.</p>\n".toList ++
  "</body></html>\n".toList

/-- Ascending byte order on names: the first differing byte decides, by its
value as an unsigned byte (so upper case sorts before lower case), and a
proper initial part of a name comes before the name. -/
def byte_le : CStr → CStr → Bool
  | [], _ => true
  | _ :: _, [] => false
  | a :: as, b :: bs => a.toNat < b.toNat || (a = b && byte_le as bs)

/-- The list item of a directory listing that links to `href` under the label
`name`. -/
def browse_item (href name : CStr) : List Char :=
  "<li><a href=\"".toList ++ href ++ "\">".toList ++ name ++ "</a></li>\n".toList

/-- The directory listing response for the shown uri `shown` with the text
`items` between `<ul>` and `</ul>`. -/
def browse_page (shown : CStr) (items : List Char) : List Char :=
  "HTTP/1.0 200 OK\r\n".toList ++
  "Content-Type: text/html\r\n".toList ++
  "\r\n".toList ++
  "<html><head><title>Index of ".toList ++ shown ++ "</title></head><body>\n".toList ++
  "<h1>Index of ".toList ++ shown ++ "</h1>\n<ul>\n".toList ++
  items ++
  "</ul>\n</body></html>\n".toList

/-- Whether a directory entry is listed: it is neither `.` nor `..`. -/
def listed (name : CStr) : Bool :=
  name ≠ ['.'] && name ≠ ['.', '.']

/-- The uri a listing or an error page shows: the `uri` field, or `/` when it
is `NULL`. -/
def shown_uri (uri : Option CStr) : CStr :=
  match uri with
  | some u => u
  | none => ['/']

/-- The hyperlink target for the request uri `U` and the entry name `N`, in
the words of the specification: `U` followed by `N` with one `/` between them,
`U ++ N` when `U` ends with `/` and `U ++ "/" ++ N` otherwise, an empty `U`
being taken as `/`. -/
def link_target (U N : CStr) : CStr :=
  let base : CStr := if U = [] then ['/'] else U
  if base.getLast? = some '/' then base ++ N else base ++ ['/'] ++ N

/-- A fresh request with the given `uri` and resolved `path`, on a connection
that accepts every write. -/
def resolved_request (uri path : String) : request :=
  { request_of "" with uri := some uri.toList, path := some path.toList }

/-- The fields of a request that `parse_request_headers` leaves alone. -/
def same_but_headers (r r2 : request) : Prop :=
  r2.method = r.method ∧ r2.uri = r.uri ∧ r2.path = r.path ∧ r2.query = r.query ∧
  r2.host = r.host ∧ r2.port = r.port ∧ r2.file.output = r.file.output ∧
  r2.file.room = r.file.room

/-- The name of the variable a request header named `name` is exported under,
in the words of the specification: `HTTP_` followed by `name` with each
lower-case ASCII letter upper-cased and each `-` replaced by `_`. -/
def http_variable (name : CStr) : CStr :=
  "HTTP_".toList ++
    name.map (fun c => if c.isLower then c.toUpper else if c = '-' then '_' else c)

/-- The smallest line buffer the C standard allows (`BUFSIZ` is at least 256),
with the document root `/srv/www`. -/
def cfg_min : Config :=
  { BUFSIZ := 256, PATH_MAX := 4096, Port := "9898".toList,
    MimeTypesPath := "/etc/mime.types".toList,
    DefaultMimeType := "text/plain".toList, RootPath := "/srv/www".toList }

/-- A process whose environment still holds the peer of an earlier request,
`REMOTE_ADDR=10.0.0.7` and `REMOTE_PORT=4242`. -/
def stale_process : Process :=
  { env := [("REMOTE_ADDR".toList, "10.0.0.7".toList),
            ("REMOTE_PORT".toList, "4242".toList)],
    calls := [], status_lines := [] }

/-- A request line of 267 bytes, longer than the 255 bytes `fgets` takes into
a buffer of 256: method, target and version, then padding, then the text
`X-Admin: yes`. -/
def long_request_line : List Char :=
  "GET / HTTP/1.0 ".toList ++ List.replicate 240 'x' ++ "X-Admin: yes".toList

/-- A header line of 266 bytes, longer than the 255 bytes `fgets` takes into a
buffer of 256: the header `X-Long` with a value of 247 bytes followed by the
text `Injected: 1`. -/
def long_header_line : List Char :=
  "X-Long: ".toList ++ List.replicate 247 'a' ++ "Injected: 1".toList

/-- A fresh request on a connection that sent the bytes `bytes` and accepts
every write. -/
def request_of_bytes (bytes : List Char) : request :=
  accept_request { input := bytes, output := [], room := none } none

/-- A fresh request on a socket stream whose client sent `text` in one piece
and takes `room` bytes of the response. -/
def request_with_room (text : String) (room : Nat) : request :=
  accept_request { input := text.toList, output := [], room := some room } none

/-- Header lines for the line buffer of 256 bytes of `cfg_min`: the header `X`
in a line of 254 bytes, then the header `Y`, then the empty line. -/
def boundary_lines : List CStr :=
  ["X: ".toList ++ List.replicate 251 'a', "Y: b".toList, []]

/-- As `boundary_lines`, with the header `X` in a line of 255 bytes. -/
def boundary_lines_255 : List CStr :=
  ["X: ".toList ++ List.replicate 252 'a', "Y: b".toList, []]

open request_type in
/-- The request `r` is answered by `handle_cgi_request` on the path `real`: it
parses, its uri resolves to `real` inside the document root, and `real` is
classified as a script. -/
def answered_by_script (cfg : Config) (fs : FileSystem) (r : request) (real : CStr) :
    Prop :=
  ¬ (parse_request cfg r).1 < 0 ∧
  determine_request_path cfg fs (parse_request cfg r).2.uri = some real ∧
  determine_request_type fs real = REQUEST_CGI

/-- The request `handle_request` passes to the handler it dispatches to: `r` as
parsed, with the resolved path `real`. -/
def dispatched (cfg : Config) (r : request) (real : CStr) : request :=
  { (parse_request cfg r).2 with path := some real }

/-- A fresh request on a connection that sent `text` and accepts every write,
from the peer `host`, `port`. -/
def request_from (text host port : String) : request :=
  accept_request { input := text.toList, output := [], room := none }
    (some (host.toList, port.toList))

/-- A socket stream in working order for `n` more bytes: no request byte is
unread in its buffer, and the peer takes the bytes that wait in the buffer and
`n` bytes more. -/
def Stream.sound (f : Stream) (n : Nat) : Prop :=
  ∃ k : Nat, f.room = some k ∧ f.unread = 0 ∧ f.buffer.length + n ≤ k

/-- The bytes written to a stream so far: those delivered, then those that
wait in the buffer. -/
def Stream.written (f : Stream) : List Char :=
  f.output ++ f.buffer

/-! ## Theorems -/

theorem char_toNat_eq_zero {c : Char} : (c.toNat : Int) = 0 ↔ c = '\x00' := by
  constructor
  · intro h
    have h0 : c.toNat = 0 := by exact_mod_cast h
    have := Char.ofNat_toNat c
    rw [h0] at this
    exact this.symm
  · rintro rfl
    rfl

theorem char_toNat_sub_ne_zero {a b : Char} (h : a ≠ b) :
    (a.toNat : Int) - (b.toNat : Int) ≠ 0 := by
  intro h0
  apply h
  have h1 : a.toNat = b.toNat := by omega
  have ha := Char.ofNat_toNat a
  rw [h1, Char.ofNat_toNat] at ha
  exact ha.symm

theorem strncmp_eq_zero_iff (R : CStr) (hR : '\x00' ∉ R) (C : CStr) :
    strncmp C R R.length = 0 ↔ R <+: C := by
  induction R generalizing C with
  | nil => simp [strncmp]
  | cons b bs ih =>
    have hb : b ≠ '\x00' := fun h => hR (by simp [h])
    have hbs : '\x00' ∉ bs := fun h => hR (by simp [h])
    cases C with
    | nil =>
      simp only [List.length_cons, strncmp]
      constructor
      · intro h
        exact absurd (char_toNat_eq_zero.mp (by omega)) hb
      · intro h
        simp at h
    | cons a as =>
      simp only [List.length_cons, strncmp]
      by_cases hab : a = b
      · subst hab
        simp only [ne_eq, not_true_eq_false, if_false, if_neg hb]
        rw [ih hbs as]
        simp [List.cons_prefix_cons]
      · simp only [ne_eq, hab, not_false_eq_true, if_true]
        constructor
        · intro h
          exact absurd h (char_toNat_sub_ne_zero hab)
        · intro h
          rw [List.cons_prefix_cons] at h
          exact absurd h.1.symm hab

theorem charAt_append_length (R t : CStr) : charAt (R ++ t) R.length = charAt t 0 := by
  simp [charAt, List.getD_eq_getElem?_getD, List.getElem?_append_right]

theorem determine_request_path_outside (cfg : Config) (fs : FileSystem)
    (uri : Option CStr) (C : CStr)
    (hroot : '\x00' ∉ cfg.RootPath)
    (hreal : fs.realpath (request_join cfg uri) = some C)
    (hC : '\x00' ∉ C)
    (hout : ¬ (C = cfg.RootPath ∨ (cfg.RootPath ++ ['/']) <+: C)) :
    determine_request_path cfg fs uri = none := by
  unfold determine_request_path
  simp only [hreal]
  split_ifs with h1 h2 h3
  · rfl
  · rfl
  · rfl
  · exfalso
    apply hout
    have hp : cfg.RootPath <+: C := (strncmp_eq_zero_iff _ hroot C).mp (by simpa using h2)
    obtain ⟨t, rfl⟩ := hp
    rw [charAt_append_length] at h3
    cases t with
    | nil => left; simp
    | cons c cs =>
      right
      have hc : c ≠ '\x00' := fun h => hC (by simp [h])
      have hs : c = '/' := by
        by_contra hs
        exact h3 ⟨by simpa [charAt] using hc, by simpa [charAt] using hs⟩
      exact ⟨cs, by simp [hs]⟩

/-- C1: when canonicalising the joined path gives `C`, `determine_request_path`
returns `C` exactly when `C` is the document root or begins with the document
root followed by `/`, and returns `NULL` otherwise. -/
theorem determine_request_path_root_check (cfg : Config) (fs : FileSystem)
    (uri : Option CStr) (C : CStr)
    (hroot : '\x00' ∉ cfg.RootPath)
    (hfit : (request_join cfg uri).length < cfg.BUFSIZ)
    (hreal : fs.realpath (request_join cfg uri) = some C)
    (hC : '\x00' ∉ C) :
    determine_request_path cfg fs uri =
      if C = cfg.RootPath ∨ (cfg.RootPath ++ ['/']) <+: C then some C else none := by
  unfold determine_request_path
  simp only [ge_iff_le, Nat.not_le.mpr hfit, if_false, hreal]
  by_cases hp : cfg.RootPath <+: C
  · have h0 : strncmp C cfg.RootPath cfg.RootPath.length = 0 :=
      (strncmp_eq_zero_iff _ hroot C).mpr hp
    obtain ⟨t, rfl⟩ := hp
    simp only [h0, ne_eq, not_true_eq_false, if_false, charAt_append_length]
    cases t with
    | nil => simp [charAt]
    | cons c cs =>
      have hc : c ≠ '\x00' := fun h => hC (by simp [h])
      by_cases hs : c = '/'
      · subst hs
        have : (cfg.RootPath ++ ['/']) <+: (cfg.RootPath ++ '/' :: cs) :=
          ⟨cs, by simp⟩
        simp [charAt, this]
      · have h1 : ¬ (cfg.RootPath ++ ['/']) <+: (cfg.RootPath ++ c :: cs) := by
          rintro ⟨u, hu⟩
          rw [List.append_assoc, List.append_cancel_left_eq] at hu
          simp at hu
          exact hs hu.1.symm
        simp [charAt, hc, hs, h1]
  · have h0 : strncmp C cfg.RootPath cfg.RootPath.length ≠ 0 :=
      fun h => hp ((strncmp_eq_zero_iff _ hroot C).mp h)
    have h1 : ¬ C = cfg.RootPath := fun h => hp (h ▸ List.prefix_refl _)
    have h2 : ¬ (cfg.RootPath ++ ['/']) <+: C :=
      fun h => hp ((List.prefix_append _ _).trans h)
    simp [h0, h1, h2]

/-- Witness for C1 at the root `/srv/www`: a path resolving to
`/srv/www2/secret` is rejected, `/srv/www/index.html` and `/srv/www` itself are
returned. -/
theorem determine_request_path_root_check_witness :
    determine_request_path cfg_www fs_www (some "/../www2/secret".toList) = none ∧
    determine_request_path cfg_www fs_www (some "/index.html".toList)
      = some "/srv/www/index.html".toList ∧
    determine_request_path cfg_www fs_www (some "/".toList) = some "/srv/www".toList :=
  ⟨(determine_request_path_root_check cfg_www fs_www (some "/../www2/secret".toList)
      "/srv/www2/secret".toList (by decide) (by decide) (by decide) (by decide)).trans
      (by decide),
   (determine_request_path_root_check cfg_www fs_www (some "/index.html".toList)
      "/srv/www/index.html".toList (by decide) (by decide) (by decide) (by decide)).trans
      (by decide),
   (determine_request_path_root_check cfg_www fs_www (some "/".toList)
      "/srv/www".toList (by decide) (by decide) (by decide) (by decide)).trans
      (by decide)⟩

theorem handle_error_status (p : Process) (r : request) (status : http_status) :
    (handle_error p r status).1 = status ∧
    (handle_error p r status).2.1.calls = p.calls ++ [Generator.error status] ∧
    (handle_error p r status).2.1.env = p.env :=
  ⟨rfl, rfl, rfl⟩

open http_status request_type in
/-- C2: `handle_request` answers 400 Bad Request when `parse_request` fails and
404 Not Found when `determine_request_path` fails or `determine_request_type`
yields `REQUEST_BAD`; a target whose canonical path lies outside the document
root gets 404, and in each of these runs the only response generator entered is
`handle_error`. -/
theorem handle_request_error_status (cfg : Config) (fs : FileSystem) (p : Process)
    (r : request) :
    ((parse_request cfg r).1 < 0 →
      (handle_request cfg fs p r).1 = HTTP_STATUS_BAD_REQUEST ∧
      (handle_request cfg fs p r).2.1.calls
        = p.calls ++ [Generator.error HTTP_STATUS_BAD_REQUEST]) ∧
    (¬ (parse_request cfg r).1 < 0 →
      determine_request_path cfg fs (parse_request cfg r).2.uri = none →
      (handle_request cfg fs p r).1 = HTTP_STATUS_NOT_FOUND ∧
      (handle_request cfg fs p r).2.1.calls
        = p.calls ++ [Generator.error HTTP_STATUS_NOT_FOUND]) ∧
    (∀ real : CStr, ¬ (parse_request cfg r).1 < 0 →
      determine_request_path cfg fs (parse_request cfg r).2.uri = some real →
      determine_request_type fs real = REQUEST_BAD →
      (handle_request cfg fs p r).1 = HTTP_STATUS_NOT_FOUND ∧
      (handle_request cfg fs p r).2.1.calls
        = p.calls ++ [Generator.error HTTP_STATUS_NOT_FOUND]) ∧
    (∀ C : CStr, ¬ (parse_request cfg r).1 < 0 →
      '\x00' ∉ cfg.RootPath →
      fs.realpath (request_join cfg (parse_request cfg r).2.uri) = some C →
      '\x00' ∉ C →
      ¬ (C = cfg.RootPath ∨ (cfg.RootPath ++ ['/']) <+: C) →
      (handle_request cfg fs p r).1 = HTTP_STATUS_NOT_FOUND ∧
      (handle_request cfg fs p r).2.1.calls
        = p.calls ++ [Generator.error HTTP_STATUS_NOT_FOUND]) := by
  have hnone : ¬ (parse_request cfg r).1 < 0 →
      determine_request_path cfg fs (parse_request cfg r).2.uri = none →
      (handle_request cfg fs p r).1 = HTTP_STATUS_NOT_FOUND ∧
      (handle_request cfg fs p r).2.1.calls
        = p.calls ++ [Generator.error HTTP_STATUS_NOT_FOUND] := by
    intro hrc hpath
    unfold handle_request
    simp only [hrc, if_false, hpath]
    exact ⟨rfl, rfl⟩
  refine ⟨?_, hnone, ?_, ?_⟩
  · intro hrc
    unfold handle_request
    simp only [hrc, if_true]
    exact ⟨rfl, rfl⟩
  · intro real hrc hpath htype
    unfold handle_request
    simp only [hrc, if_false, hpath, htype]
    exact ⟨rfl, rfl⟩
  · intro C hrc hroot hreal hC hout
    exact hnone hrc (determine_request_path_outside cfg fs _ C hroot hreal hC hout)

open http_status in
/-- Witness for C2: the request line `GET` alone gets 400; the traversal target
`/../../etc/passwd`, canonical path `/etc/passwd`, gets 404; the named pipe
`/fifo` gets 404; each time only `handle_error` is entered. -/
theorem handle_request_error_status_witness :
    ((handle_request cfg_www fs_www fresh_process (request_of "GET\r\n\r\n")).1
        = HTTP_STATUS_BAD_REQUEST ∧
      (handle_request cfg_www fs_www fresh_process (request_of "GET\r\n\r\n")).2.1.calls
        = fresh_process.calls ++ [Generator.error HTTP_STATUS_BAD_REQUEST]) ∧
    ((handle_request cfg_www fs_www fresh_process
        (request_of "GET /missing.txt HTTP/1.0\r\n\r\n")).1 = HTTP_STATUS_NOT_FOUND ∧
      (handle_request cfg_www fs_www fresh_process
        (request_of "GET /missing.txt HTTP/1.0\r\n\r\n")).2.1.calls
        = fresh_process.calls ++ [Generator.error HTTP_STATUS_NOT_FOUND]) ∧
    ((handle_request cfg_www fs_www fresh_process
        (request_of "GET /fifo HTTP/1.0\r\n\r\n")).1 = HTTP_STATUS_NOT_FOUND ∧
      (handle_request cfg_www fs_www fresh_process
        (request_of "GET /fifo HTTP/1.0\r\n\r\n")).2.1.calls
        = fresh_process.calls ++ [Generator.error HTTP_STATUS_NOT_FOUND]) ∧
    ((handle_request cfg_www fs_www fresh_process
        (request_of "GET /../../etc/passwd HTTP/1.0\r\n\r\n")).1 = HTTP_STATUS_NOT_FOUND ∧
      (handle_request cfg_www fs_www fresh_process
        (request_of "GET /../../etc/passwd HTTP/1.0\r\n\r\n")).2.1.calls
        = fresh_process.calls ++ [Generator.error HTTP_STATUS_NOT_FOUND]) :=
  ⟨(handle_request_error_status cfg_www fs_www fresh_process
      (request_of "GET\r\n\r\n")).1 (by decide),
   (handle_request_error_status cfg_www fs_www fresh_process
      (request_of "GET /missing.txt HTTP/1.0\r\n\r\n")).2.1 (by decide) (by decide),
   (handle_request_error_status cfg_www fs_www fresh_process
      (request_of "GET /fifo HTTP/1.0\r\n\r\n")).2.2.1 "/srv/www/fifo".toList
      (by decide) (by decide) (by decide),
   (handle_request_error_status cfg_www fs_www fresh_process
      (request_of "GET /../../etc/passwd HTTP/1.0\r\n\r\n")).2.2.2 "/etc/passwd".toList
      (by decide) (by decide) (by decide) (by decide) (by decide)⟩

/-! ### Reading a line -/

theorem fgets_take_append (n : Nat) (l : List Char) :
    (fgets_take n l).1 ++ (fgets_take n l).2 = l := by
  induction n generalizing l with
  | zero => simp [fgets_take]
  | succ n ih =>
    cases l with
    | nil => simp [fgets_take]
    | cons c cs =>
      simp only [fgets_take]
      split_ifs with h
      · simp
      · simp [ih cs]

theorem fgets_take_line (n : Nat) (line rest : List Char) (hnl : '\n' ∉ line)
    (hfit : line.length < n) :
    fgets_take n (line ++ '\n' :: rest) = (line ++ ['\n'], rest) := by
  induction line generalizing n with
  | nil =>
    cases n with
    | zero => simp at hfit
    | succ n => simp [fgets_take]
  | cons a as ih =>
    cases n with
    | zero => simp at hfit
    | succ n =>
      have ha : a ≠ '\n' := fun h => hnl (by simp [h])
      have has : '\n' ∉ as := fun h => hnl (by simp [h])
      have hlen : as.length < n := by simpa using hfit
      simp [fgets_take, ha, ih n has hlen]

theorem fgets_crlf_line (size : Nat) (line rest : List Char) (hnl : '\n' ∉ line)
    (hfit : line.length + 2 < size) :
    fgets size (line ++ '\r' :: '\n' :: rest) = some (line ++ ['\r', '\n'], rest) := by
  have h1 : line ++ '\r' :: '\n' :: rest = (line ++ ['\r']) ++ '\n' :: rest := by simp
  have h2 : '\n' ∉ line ++ ['\r'] := by
    simp only [List.mem_append, List.mem_singleton, not_or]
    exact ⟨hnl, by decide⟩
  have h3 : (line ++ ['\r']).length < size - 1 := by
    simp only [List.length_append, List.length_singleton]
    omega
  unfold fgets
  rw [if_neg (by omega), if_neg (by simp)]
  rw [h1, fgets_take_line _ _ _ h2 h3]
  simp

theorem cstr_of_not_mem (l : List Char) (h : '\x00' ∉ l) : cstr l = l := by
  unfold cstr
  rw [List.takeWhile_eq_self_iff]
  intro c hc
  have : c ≠ '\x00' := fun h0 => h (h0 ▸ hc)
  simpa using this

theorem strstr_crlf_line (line : CStr) (hnl : '\n' ∉ line) :
    strstr_crlf (line ++ ['\r', '\n']) = some line.length := by
  induction line with
  | nil => simp [strstr_crlf]
  | cons a as ih =>
    have has : '\n' ∉ as := fun h => hnl (by simp [h])
    have hhead : (as ++ ['\r', '\n']).head? ≠ some '\n' := by
      cases as with
      | nil => simp
      | cons b bs =>
        have hb : b ≠ '\n' := fun h => hnl (by simp [h])
        simpa using hb
    have hcond : ¬ (a = '\r' ∧ (as ++ ['\r', '\n']).head? = some '\n') := fun h => hhead h.2
    rw [List.cons_append, strstr_crlf, if_neg hcond, ih has]
    rfl

/-! ### Tokens and `sscanf` -/

theorem splitOnP_head_tail (p : Char → Bool) (s : List Char) :
    s.splitOnP p = s.takeWhile (fun x => !p x) ::
      (match s.dropWhile (fun x => !p x) with
        | [] => []
        | _ :: r => r.splitOnP p) := by
  induction s with
  | nil => simp [List.splitOnP_nil]
  | cons x xs ih =>
    rw [List.splitOnP_cons]
    by_cases h : p x = true
    · simp [h, List.takeWhile, List.dropWhile]
    · have h' : p x = false := by simpa using h
      rw [if_neg h, ih]
      simp [h', List.takeWhile, List.dropWhile, List.modifyHead]

theorem tokens_nil : tokens [] = [] := by
  simp [tokens, List.splitOnP_nil]

theorem tokens_cons_space (c : Char) (s : CStr) (h : isspace c = true) :
    tokens (c :: s) = tokens s := by
  simp [tokens, List.splitOnP_cons, h]

theorem tokens_dropWhile_space (s : CStr) : tokens (s.dropWhile isspace) = tokens s := by
  induction s with
  | nil => rfl
  | cons c cs ih =>
    by_cases h : isspace c = true
    · rw [List.dropWhile_cons_of_pos h, ih, tokens_cons_space c cs h]
    · rw [List.dropWhile_cons_of_neg h]

theorem tokens_cons_nonspace (c : Char) (cs : CStr) (h : isspace c = false) :
    tokens (c :: cs) = (c :: cs).takeWhile (fun x => !isspace x) ::
      tokens ((c :: cs).dropWhile (fun x => !isspace x)) := by
  have hsplit := splitOnP_head_tail isspace (c :: cs)
  have hne : (c :: cs).takeWhile (fun x => !isspace x) ≠ [] := by
    simp [List.takeWhile, h]
  unfold tokens
  rw [hsplit]
  rw [List.filter_cons_of_pos (by simpa using hne)]
  congr 1
  cases hd : (c :: cs).dropWhile (fun x => !isspace x) with
  | nil => simp [List.splitOnP_nil]
  | cons a r =>
    have ha : isspace a = true := by
      have := List.head_dropWhile_not (fun x => !isspace x) (c :: cs) (by rw [hd]; simp)
      simpa [hd] using this
    simp [List.splitOnP_cons, ha]

theorem scan_token_none (s : CStr) (h : scan_token s = none) : tokens s = [] := by
  unfold scan_token at h
  cases hd : s.dropWhile isspace with
  | nil => rw [← tokens_dropWhile_space, hd, tokens_nil]
  | cons c cs => simp [hd] at h

theorem scan_token_some (s t r : CStr) (h : scan_token s = some (t, r)) :
    tokens s = t :: tokens r := by
  unfold scan_token at h
  cases hd : s.dropWhile isspace with
  | nil => simp [hd] at h
  | cons c cs =>
    have hc : isspace c = false := by
      have := List.head_dropWhile_not isspace s (by rw [hd]; simp)
      simpa [hd] using this
    simp only [hd, Option.some.injEq, Prod.mk.injEq] at h
    rw [← tokens_dropWhile_space, hd, tokens_cons_nonspace c cs hc, h.1, h.2]

theorem sscanf_sss_of_tokens (line : CStr) :
    sscanf_sss line =
      match tokens line with
      | [] => (-1, [], [], [])
      | [m] => (1, m, [], [])
      | [m, u] => (2, m, u, [])
      | m :: u :: v :: _ => (3, m, u, v) := by
  unfold sscanf_sss
  cases h1 : scan_token line with
  | none => simp [scan_token_none line h1]
  | some x1 =>
    obtain ⟨m, r1⟩ := x1
    rw [scan_token_some line m r1 h1]
    cases h2 : scan_token r1 with
    | none => simp [scan_token_none r1 h2, h2]
    | some x2 =>
      obtain ⟨u, r2⟩ := x2
      rw [scan_token_some r1 u r2 h2]
      cases h3 : scan_token r2 with
      | none => simp [scan_token_none r2 h3, h2, h3]
      | some x3 =>
        obtain ⟨v, r3⟩ := x3
        rw [scan_token_some r2 v r3 h3]
        simp [h2, h3]

/-! ### Splitting at the first occurrence of a byte -/

theorem strchr_eq_none (s : CStr) (c : Char) (h : strchr s c = none) :
    before_first c s = s ∧ after_first c s = [] := by
  induction s with
  | nil => simp [before_first, after_first]
  | cons a as ih =>
    by_cases hac : a = c
    · simp [strchr, hac] at h
    · have h' : strchr as c = none := by simpa [strchr, hac] using h
      have ih' := ih h'
      unfold before_first after_first at ih' ⊢
      rw [List.takeWhile_cons_of_pos (by simpa using hac),
        List.dropWhile_cons_of_pos (by simpa using hac)]
      exact ⟨by rw [ih'.1], ih'.2⟩

theorem strchr_eq_some (s : CStr) (c : Char) (i : Nat) (h : strchr s c = some i) :
    s.take i = before_first c s ∧ s.drop (i + 1) = after_first c s := by
  induction s generalizing i with
  | nil => simp [strchr] at h
  | cons a as ih =>
    by_cases hac : a = c
    · have hi : i = 0 := by simpa [strchr, hac] using h.symm
      subst hi
      simp [before_first, after_first, List.takeWhile, List.dropWhile, hac]
    · simp only [strchr, hac, if_false, Option.map_eq_some'] at h
      obtain ⟨j, hj, rfl⟩ := h
      have ih' := ih j hj
      unfold before_first after_first at ih' ⊢
      rw [List.takeWhile_cons_of_pos (by simpa using hac),
        List.dropWhile_cons_of_pos (by simpa using hac)]
      exact ⟨by rw [List.take_succ_cons, ih'.1], by rw [List.drop_succ_cons, ih'.2]⟩

theorem strchr_before_first (s : CStr) (c : Char) : strchr (before_first c s) c = none := by
  induction s with
  | nil => simp [before_first, strchr]
  | cons a as ih =>
    by_cases hac : a = c
    · simp [before_first, List.takeWhile, hac, strchr]
    · unfold before_first at ih ⊢
      rw [List.takeWhile_cons_of_pos (by simpa using hac), strchr, if_neg hac, ih]
      rfl

/-! ### The request line -/

theorem parse_request_method_line (cfg : Config) (r : request) (line rest : List Char)
    (hnl : '\n' ∉ line) (hnul : '\x00' ∉ line) (hfit : line.length + 2 < cfg.BUFSIZ)
    (hin : r.file.input = line ++ '\r' :: '\n' :: rest) :
    parse_request_method cfg r =
      match tokens line with
      | m :: u :: _ :: _ =>
        (0, { r with file := { r.file with input := rest }, method := some m,
                     uri := some (before_first '?' u),
                     query := some (after_first '?' u) })
      | _ => (-1, { r with file := { r.file with input := rest } }) := by
  have hnul2 : '\x00' ∉ line ++ ['\r', '\n'] := by
    simp only [List.mem_append, not_or]
    exact ⟨hnul, by decide⟩
  unfold parse_request_method
  rw [hin, fgets_crlf_line _ _ _ hnl hfit]
  simp only [cstr_of_not_mem _ hnul2, strstr_crlf_line _ hnl, List.take_left',
    sscanf_sss_of_tokens]
  match htok : tokens line with
  | [] => simp
  | [m] => simp
  | [m, u] => simp
  | m :: u :: v :: tl =>
    simp only [ne_eq, not_true_eq_false, if_false]
    cases hq : strchr u '?' with
    | none =>
      have := strchr_eq_none u '?' hq
      simp [this.1, this.2]
    | some q =>
      have := strchr_eq_some u '?' q hq
      simp [this.1, this.2]

/-! ### The header loop -/

theorem fgets_some_append (size : Nat) (l buf rest : List Char)
    (h : fgets size l = some (buf, rest)) : buf ++ rest = l := by
  unfold fgets at h
  split_ifs at h
  simp only [Option.some.injEq] at h
  rw [← fgets_take_append (size - 1) l, h]

theorem parse_request_headers_loop_same (cfg : Config) (fuel : Nat) (r : request) :
    same_but_headers r (parse_request_headers_loop cfg fuel r).2 := by
  induction fuel generalizing r with
  | zero => simp [parse_request_headers_loop, same_but_headers]
  | succ fuel ih =>
    unfold parse_request_headers_loop
    cases hg : fgets cfg.BUFSIZ r.file.input with
    | none => simp [same_but_headers]
    | some x =>
      obtain ⟨buf, rest⟩ := x
      simp only
      split_ifs with hlen
      · simp [same_but_headers]
      · cases hc : strchr (List.rdropWhile (fun c => c = '\n' || c = '\r') (cstr buf)) ':' with
        | none => exact ih _
        | some colon => exact ih _

theorem parse_request_headers_loop_rc (cfg : Config) (fuel : Nat) (r : request)
    (hfuel : r.file.input.length < fuel) :
    (parse_request_headers_loop cfg fuel r).1 = 0 := by
  induction fuel generalizing r with
  | zero => simp at hfuel
  | succ fuel ih =>
    unfold parse_request_headers_loop
    cases hg : fgets cfg.BUFSIZ r.file.input with
    | none => simp
    | some x =>
      obtain ⟨buf, rest⟩ := x
      simp only
      split_ifs with hlen
      · rfl
      · have happ := fgets_some_append _ _ _ _ hg
        have hbuf : buf ≠ [] := by
          rintro rfl
          simp [cstr] at hlen
        have hrest : rest.length < fuel := by
          have h1 : buf.length + rest.length = r.file.input.length := by
            rw [← happ, List.length_append]
          have h2 : 0 < buf.length := List.length_pos.mpr hbuf
          omega
        cases hc : strchr (List.rdropWhile (fun c => c = '\n' || c = '\r') (cstr buf)) ':' with
        | none => exact ih _ hrest
        | some colon => exact ih _ hrest

/-- C3: for a request line with exactly the three tokens `m`, `T`, `v`,
`parse_request` succeeds and leaves as path the text of `T` before its first
`?` (all of `T` when it has none) and as query the text after that `?` (the
empty string, not `NULL`, when `T` has none). -/
theorem parse_request_path_query (cfg : Config) (r : request) (line rest : List Char)
    (m T v : CStr)
    (htok : tokens line = [m, T, v])
    (hnl : '\n' ∉ line) (hnul : '\x00' ∉ line) (hfit : line.length + 2 < cfg.BUFSIZ)
    (hin : r.file.input = line ++ '\r' :: '\n' :: rest) :
    (parse_request cfg r).1 = 0 ∧
    (parse_request cfg r).2.path = some (before_first '?' T) ∧
    (parse_request cfg r).2.query = some (after_first '?' T) := by
  unfold parse_request
  rw [parse_request_method_line cfg r line rest hnl hnul hfit hin, htok]
  simp only [Int.lt_irrefl, if_false, strchr_before_first]
  unfold parse_request_headers
  have hrc := parse_request_headers_loop_rc cfg
    (({ r with file := { r.file with input := rest }, method := some m,
               uri := some (before_first '?' T), query := some (after_first '?' T),
               path := some (before_first '?' T) } : request).file.input.length + 1)
    { r with file := { r.file with input := rest }, method := some m,
             uri := some (before_first '?' T), query := some (after_first '?' T),
             path := some (before_first '?' T) } (Nat.lt_succ_self _)
  have hsame := parse_request_headers_loop_same cfg
    (({ r with file := { r.file with input := rest }, method := some m,
               uri := some (before_first '?' T), query := some (after_first '?' T),
               path := some (before_first '?' T) } : request).file.input.length + 1)
    { r with file := { r.file with input := rest }, method := some m,
             uri := some (before_first '?' T), query := some (after_first '?' T),
             path := some (before_first '?' T) }
  simp only [hrc, Int.lt_irrefl, if_false]
  exact ⟨trivial, hsame.2.2.1, hsame.2.2.2.1⟩

/-- Witness for C3: `GET /cgi.script?q=foo HTTP/1.0` gives the path
`/cgi.script` and the query `q=foo`; `GET /index.html HTTP/1.0` gives the path
`/index.html` and the empty query. -/
theorem parse_request_path_query_witness :
    ((parse_request cfg_www
        (request_of "GET /cgi.script?q=foo HTTP/1.0\r\nHost: x\r\n\r\n")).1 = 0 ∧
      (parse_request cfg_www
        (request_of "GET /cgi.script?q=foo HTTP/1.0\r\nHost: x\r\n\r\n")).2.path
        = some "/cgi.script".toList ∧
      (parse_request cfg_www
        (request_of "GET /cgi.script?q=foo HTTP/1.0\r\nHost: x\r\n\r\n")).2.query
        = some "q=foo".toList) ∧
    ((parse_request cfg_www (request_of "GET /index.html HTTP/1.0\r\n\r\n")).2.path
        = some "/index.html".toList ∧
      (parse_request cfg_www (request_of "GET /index.html HTTP/1.0\r\n\r\n")).2.query
        = some []) :=
  ⟨parse_request_path_query cfg_www
      (request_of "GET /cgi.script?q=foo HTTP/1.0\r\nHost: x\r\n\r\n")
      "GET /cgi.script?q=foo HTTP/1.0".toList "Host: x\r\n\r\n".toList
      "GET".toList "/cgi.script?q=foo".toList "HTTP/1.0".toList
      (by decide) (by decide) (by decide) (by decide) (by decide),
   (parse_request_path_query cfg_www (request_of "GET /index.html HTTP/1.0\r\n\r\n")
      "GET /index.html HTTP/1.0".toList "\r\n".toList
      "GET".toList "/index.html".toList "HTTP/1.0".toList
      (by decide) (by decide) (by decide) (by decide) (by decide)).2⟩

/-- Counterexample for C4: the line `GET / HTTP/1.0 extra` has four tokens, and
`parse_request_method` succeeds on it, with method `GET` and uri `/`. -/
theorem parse_request_method_extra_token :
    (tokens "GET / HTTP/1.0 extra".toList).length = 4 ∧
    (parse_request_method cfg_www (request_of "GET / HTTP/1.0 extra\r\n\r\n")).1 = 0 ∧
    (parse_request_method cfg_www (request_of "GET / HTTP/1.0 extra\r\n\r\n")).2.method
      = some "GET".toList ∧
    (parse_request_method cfg_www (request_of "GET / HTTP/1.0 extra\r\n\r\n")).2.uri
      = some "/".toList := by
  decide

/-- C4, amended: `parse_request_method` succeeds exactly when the line has at
least three white-space separated tokens; with fewer it returns -1; on success
the method is the first token, the uri and the query are the two parts of the
second, and the tokens after the third play no part. -/
theorem parse_request_method_tokens (cfg : Config) (r : request) (line rest : List Char)
    (hnl : '\n' ∉ line) (hnul : '\x00' ∉ line) (hfit : line.length + 2 < cfg.BUFSIZ)
    (hin : r.file.input = line ++ '\r' :: '\n' :: rest) :
    ((parse_request_method cfg r).1 = 0 ↔ 3 ≤ (tokens line).length) ∧
    ((tokens line).length < 3 → (parse_request_method cfg r).1 = -1) ∧
    (∀ (m u v : CStr) (more : List CStr), tokens line = m :: u :: v :: more →
      (parse_request_method cfg r).2.method = some m ∧
      (parse_request_method cfg r).2.uri = some (before_first '?' u) ∧
      (parse_request_method cfg r).2.query = some (after_first '?' u)) := by
  rw [parse_request_method_line cfg r line rest hnl hnul hfit hin]
  match htok : tokens line with
  | [] => simp
  | [m] => simp
  | [m, u] => simp
  | m :: u :: v :: tl =>
    refine ⟨by simp, by simp, ?_⟩
    intro m2 u2 v2 more h
    simp only [List.cons.injEq] at h
    obtain ⟨rfl, rfl, rfl, rfl⟩ := h
    exact ⟨rfl, rfl, rfl⟩

/-- Witness for the amended C4: `GET / HTTP/1.0 extra` (four tokens) is
accepted, `GET /` (two tokens) is refused. -/
theorem parse_request_method_tokens_witness :
    ((parse_request_method cfg_www (request_of "GET / HTTP/1.0 extra\r\n\r\n")).1 = 0 ↔
      3 ≤ (tokens "GET / HTTP/1.0 extra".toList).length) ∧
    (parse_request_method cfg_www (request_of "GET /\r\n\r\n")).1 = -1 ∧
    (parse_request_method cfg_www (request_of "GET / HTTP/1.0 extra\r\n\r\n")).2.uri
      = some (before_first '?' "/".toList) :=
  ⟨(parse_request_method_tokens cfg_www (request_of "GET / HTTP/1.0 extra\r\n\r\n")
      "GET / HTTP/1.0 extra".toList "\r\n".toList
      (by decide) (by decide) (by decide) (by decide)).1,
   (parse_request_method_tokens cfg_www (request_of "GET /\r\n\r\n")
      "GET /".toList "\r\n".toList
      (by decide) (by decide) (by decide) (by decide)).2.1 (by decide),
   ((parse_request_method_tokens cfg_www (request_of "GET / HTTP/1.0 extra\r\n\r\n")
      "GET / HTTP/1.0 extra".toList "\r\n".toList
      (by decide) (by decide) (by decide) (by decide)).2.2
      "GET".toList "/".toList "HTTP/1.0".toList ["extra".toList] (by decide)).2.1⟩

/-! ### Header lines -/

theorem strchr_eq_none_iff (s : CStr) (c : Char) : strchr s c = none ↔ c ∉ s := by
  induction s with
  | nil => simp [strchr]
  | cons a as ih =>
    by_cases hac : a = c
    · simp [strchr, hac]
    · have hca : ¬ c = a := fun h => hac h.symm
      simp [strchr, hac, hca, ih]

theorem rdropWhile_crlf_line (l : CStr) (hnl : '\n' ∉ l) (hcr : l.getLast? ≠ some '\r') :
    List.rdropWhile (fun c => c = '\n' || c = '\r') (l ++ ['\r', '\n']) = l := by
  have h1 : l ++ ['\r', '\n'] = (l ++ ['\r']) ++ ['\n'] := by simp
  rw [h1, List.rdropWhile_concat_pos _ _ _ (by decide),
    List.rdropWhile_concat_pos _ _ _ (by decide), List.rdropWhile_eq_self_iff]
  intro hl
  have hlast : l.getLast? = some (l.getLast hl) := List.getLast?_eq_getLast _ hl
  have hmem : l.getLast hl ∈ l := List.getLast_mem hl
  have h2 : l.getLast hl ≠ '\n' := fun h => hnl (h ▸ hmem)
  have h3 : l.getLast hl ≠ '\r' := fun h => hcr (by rw [hlast, h])
  simp [h2, h3]

theorem header_stream_cons (l : CStr) (ls : List CStr) (tail : List Char) :
    header_stream (l :: ls) ++ tail = l ++ '\r' :: '\n' :: (header_stream ls ++ tail) := by
  simp [header_stream]

theorem parse_request_headers_loop_lines (cfg : Config) (ls : List CStr) :
    ∀ (fuel : Nat) (r : request) (tail : List Char),
      ls.length < fuel →
      (∀ l ∈ ls, '\n' ∉ l ∧ '\x00' ∉ l ∧ l.getLast? ≠ some '\r') →
      (∀ l ∈ ls, l.length + 2 < cfg.BUFSIZ) →
      ([] ∈ ls ∨ tail = []) →
      r.file.input = header_stream ls ++ tail →
      (parse_request_headers_loop cfg fuel r).1 = 0 ∧
      (parse_request_headers_loop cfg fuel r).2.headers = r.headers ++ headers_of_lines ls := by
  induction ls with
  | nil =>
    intro fuel r tail hfuel _ _ hend hin
    have htail : tail = [] := by simpa using hend
    subst htail
    cases fuel with
    | zero => simp at hfuel
    | succ fuel =>
      have hin' : r.file.input = [] := by simpa [header_stream] using hin
      simp [parse_request_headers_loop, hin', fgets, headers_of_lines]
  | cons l ls ih =>
    intro fuel r tail hfuel hline hfit hend hin
    cases fuel with
    | zero => simp at hfuel
    | succ fuel =>
      obtain ⟨hnl, hnul, hcr⟩ := hline l (List.mem_cons_self _ _)
      have hfitl := hfit l (List.mem_cons_self _ _)
      have hnul2 : '\x00' ∉ l ++ ['\r', '\n'] := by
        simp only [List.mem_append, not_or]
        exact ⟨hnul, by decide⟩
      rw [header_stream_cons] at hin
      unfold parse_request_headers_loop
      rw [hin, fgets_crlf_line _ _ _ hnl hfitl]
      simp only [cstr_of_not_mem _ hnul2, rdropWhile_crlf_line l hnl hcr]
      by_cases hl : l = []
      · subst hl
        simp [headers_of_lines]
      · have hlen : ¬ l.length = 0 := by simpa using hl
        have hend' : [] ∈ ls ∨ tail = [] := by
          rcases hend with h | h
          · left
            rcases List.mem_cons.mp h with h | h
            · exact absurd h.symm hl
            · exact h
          · right; exact h
        have hline' : ∀ x ∈ ls, '\n' ∉ x ∧ '\x00' ∉ x ∧ x.getLast? ≠ some '\r' :=
          fun x hx => hline x (List.mem_cons_of_mem _ hx)
        have hfit' : ∀ x ∈ ls, x.length + 2 < cfg.BUFSIZ :=
          fun x hx => hfit x (List.mem_cons_of_mem _ hx)
        have hfuel' : ls.length < fuel := by simpa using hfuel
        rw [if_neg hlen]
        cases hc : strchr l ':' with
        | none =>
          have hmem : ':' ∉ l := (strchr_eq_none_iff l ':').mp hc
          have := ih fuel { r with file := { r.file with input := header_stream ls ++ tail } }
            tail hfuel' hline' hfit' hend' rfl
          simp only at this ⊢
          rw [this.2]
          refine ⟨this.1, ?_⟩
          simp [headers_of_lines, List.takeWhile_cons, hl, hmem]
        | some colon =>
          have hmem : ':' ∈ l := by
            by_contra h
            rw [(strchr_eq_none_iff l ':').mpr h] at hc
            exact Option.noConfusion hc
          have hsplit := strchr_eq_some l ':' colon hc
          have := ih fuel
            { r with file := { r.file with input := header_stream ls ++ tail },
                     headers := r.headers ++
                       [{ name := trim_blank (before_first ':' l),
                          value := trim_blank (after_first ':' l) }] }
            tail hfuel' hline' hfit' hend' rfl
          simp only [hsplit.1, hsplit.2] at this ⊢
          rw [this.2]
          refine ⟨this.1, ?_⟩
          simp [headers_of_lines, List.takeWhile_cons, hl, hmem]

theorem length_le_header_stream (ls : List CStr) (tail : List Char) :
    ls.length ≤ (header_stream ls ++ tail).length := by
  induction ls with
  | nil => simp
  | cons l ls ih =>
    rw [header_stream_cons]
    simp only [List.length_append, List.length_cons] at ih ⊢
    omega

/-- C5, amended: for header lines that each fit the line buffer together with
their CR LF (at most `BUFSIZ - 3` bytes), `parse_request_headers` succeeds and
leaves the header list `headers_of_lines ls`: in input order, one
(name, value) pair for each line before the first empty line that holds `:`,
split at the first `:` and trimmed of spaces and tabs; lines without `:` are
passed over and lines with equal names are all kept. -/
theorem parse_request_headers_lines (cfg : Config) (r : request) (ls : List CStr)
    (tail : List Char)
    (hr : r.headers = [])
    (hline : ∀ l ∈ ls, '\n' ∉ l ∧ '\x00' ∉ l ∧ l.getLast? ≠ some '\r')
    (hfit : ∀ l ∈ ls, l.length + 2 < cfg.BUFSIZ)
    (hend : [] ∈ ls ∨ tail = [])
    (hin : r.file.input = header_stream ls ++ tail) :
    (parse_request_headers cfg r).1 = 0 ∧
    (parse_request_headers cfg r).2.headers = headers_of_lines ls := by
  have hfuel : ls.length < r.file.input.length + 1 := by
    rw [hin]
    exact Nat.lt_succ_of_le (length_le_header_stream ls tail)
  have h := parse_request_headers_loop_lines cfg ls (r.file.input.length + 1) r tail
    hfuel hline hfit hend hin
  unfold parse_request_headers
  refine ⟨h.1, ?_⟩
  rw [h.2, hr, List.nil_append]

/-- Witness for the amended C5: `X-Test:   value  ` becomes (`X-Test`, `value`), the line
without `:` is passed over, both `Host` lines are kept, and the line after the
empty line is not read as a header. -/
theorem parse_request_headers_lines_witness :
    (parse_request_headers cfg_www
      { request_of "" with file := { input := header_stream example_lines ++ "body".toList,
                                     output := [], room := none } }).1 = 0 ∧
    (parse_request_headers cfg_www
      { request_of "" with file := { input := header_stream example_lines ++ "body".toList,
                                     output := [], room := none } }).2.headers
      = [{ name := "Host".toList, value := "a".toList },
         { name := "X-Test".toList, value := "value".toList },
         { name := "Host".toList, value := "b".toList }] :=
  parse_request_headers_lines cfg_www
    { request_of "" with file := { input := header_stream example_lines ++ "body".toList,
                                   output := [], room := none } }
    example_lines "body".toList (by decide) (by decide) (by decide) (by decide) (by decide)

/-- Counterexample for C5: with a line buffer of 256 bytes, a header line of 254
bytes (of 255 bytes) is shorter than the buffer, but `fgets` cuts it from its
CR LF (inside its CR LF): the next read yields an empty line, the loop ends, and
the header `Y` of the following line is missing from the list. -/
theorem parse_request_headers_lines_counterexample :
    (∀ l ∈ boundary_lines, l.length < cfg_min.BUFSIZ) ∧
    (parse_request_headers cfg_min
      (request_of_bytes (header_stream boundary_lines))).1 = 0 ∧
    (parse_request_headers cfg_min
      (request_of_bytes (header_stream boundary_lines))).2.headers
      = [{ name := "X".toList, value := List.replicate 251 'a' }] ∧
    headers_of_lines boundary_lines
      = [{ name := "X".toList, value := List.replicate 251 'a' },
         { name := "Y".toList, value := "b".toList }] ∧
    (∀ l ∈ boundary_lines_255, l.length < cfg_min.BUFSIZ) ∧
    (parse_request_headers cfg_min
      (request_of_bytes (header_stream boundary_lines_255))).2.headers
      = [{ name := "X".toList, value := List.replicate 252 'a' }] ∧
    headers_of_lines boundary_lines_255
      = [{ name := "X".toList, value := List.replicate 252 'a' },
         { name := "Y".toList, value := "b".toList }] := by
  set_option maxRecDepth 1000000 in decide

/-! ### Writing to a stream that accepts every write -/

theorem fprintf_room_none (i o b : List Char) (c tot : Nat) (fl : Bool) (text : List Char) :
    fprintf (Stream.mk i o none b c tot fl) text
      = (Stream.mk i (o ++ text) none b c tot fl) := by
  simp [fprintf, Stream.write]

theorem fflush_room_none (i o b : List Char) (c tot : Nat) (fl : Bool) :
    fflush (Stream.mk i o none b c tot fl)
      = (Stream.mk i o none b c tot fl) := by
  simp [fflush, Stream.flush]

theorem stream_eta_room_none (f : Stream) (h : f.room = none) :
    f = Stream.mk f.input f.output none f.buffer f.capacity f.total f.flushed := by
  cases f
  simp_all

theorem copy_chunks_room_none (cfg : Config) (hbuf : 0 < cfg.BUFSIZ) :
    ∀ (fuel : Nat) (src i o b : List Char) (c tot : Nat) (fl : Bool), src.length < fuel →
      copy_chunks cfg fuel src
          (Stream.mk i o none b c tot fl)
        = (true, (Stream.mk i (o ++ src) none b c tot fl)) := by
  intro fuel
  induction fuel with
  | zero => intro src i o b c tot fl h; simp at h
  | succ fuel ih =>
    intro src i o b c tot fl hlen
    unfold copy_chunks
    by_cases hsrc : src = []
    · subst hsrc
      simp
    · have hpos : 0 < src.length := List.length_pos.mpr hsrc
      have hchunk : ¬ (List.take cfg.BUFSIZ src).length = 0 := by
        rw [List.length_take]
        omega
      have hdrop : (List.drop cfg.BUFSIZ src).length < fuel := by
        rw [List.length_drop]
        omega
      simp only [hchunk, if_false, fwrite, Stream.write, ne_eq, not_true_eq_false]
      rw [ih (List.drop cfg.BUFSIZ src) i _ b c tot fl hdrop, List.append_assoc,
        List.take_append_drop]

open http_status in
/-- C6: for a file that can be opened, of any length, and a stream that accepts
every write, `handle_file_request` returns 200 OK and writes exactly the status
line, the `Content-Type` line with the value of `determine_mimetype` for the
path, the blank line, and then the bytes of the file in order. -/
theorem handle_file_request_ok (cfg : Config) (fs : FileSystem) (p : Process)
    (r : request) (path : CStr) (content : List Char)
    (hbuf : 0 < cfg.BUFSIZ)
    (hpath : r.path = some path)
    (hopen : fs.fopen path = some content)
    (hroom : r.file.room = none) :
    (handle_file_request cfg fs p r).1 = HTTP_STATUS_OK ∧
    (handle_file_request cfg fs p r).2.2.file.output =
      r.file.output ++ ("HTTP/1.0 200 OK\r\n".toList ++
        ("Content-Type: ".toList ++ determine_mimetype cfg fs path ++ "\r\n".toList) ++
        "\r\n".toList ++ content) := by
  unfold handle_file_request
  rw [stream_eta_room_none r.file hroom]
  simp only [hpath, hopen, fprintf_room_none,
    copy_chunks_room_none cfg hbuf _ content _ _ _ _ _ _ (Nat.lt_succ_self _), fflush_room_none]
  simp [http_status_string, List.append_assoc]

open http_status in
/-- Witness for C6: `/srv/www/index.html` is served with the mime type the
table gives for `html`, followed by its ten bytes. -/
theorem handle_file_request_ok_witness :
    (handle_file_request cfg_www fs_www fresh_process
      { request_of "" with path := some "/srv/www/index.html".toList }).1 = HTTP_STATUS_OK ∧
    (handle_file_request cfg_www fs_www fresh_process
      { request_of "" with path := some "/srv/www/index.html".toList }).2.2.file.output =
      "HTTP/1.0 200 OK\r\nContent-Type: text/html\r\n\r\n<p>hi</p>\n".toList :=
  ⟨(handle_file_request_ok cfg_www fs_www fresh_process
      { request_of "" with path := some "/srv/www/index.html".toList }
      "/srv/www/index.html".toList "<p>hi</p>\n".toList
      (by decide) (by decide) (by decide) (by decide)).1,
   (handle_file_request_ok cfg_www fs_www fresh_process
      { request_of "" with path := some "/srv/www/index.html".toList }
      "/srv/www/index.html".toList "<p>hi</p>\n".toList
      (by decide) (by decide) (by decide) (by decide)).2.trans (by decide)⟩

open request_type in
/-- C7: `determine_request_type` returns `REQUEST_BROWSE` for a directory,
`REQUEST_CGI` for a regular file the server may execute (readable or not),
`REQUEST_FILE` for a regular file it may read but not execute, and
`REQUEST_BAD` in every other case: `stat` fails, the file is neither a
directory nor a regular file, or it is regular but neither readable nor
executable. -/
theorem determine_request_type_cases (fs : FileSystem) (path : CStr) :
    (fs.stat path = none → determine_request_type fs path = REQUEST_BAD) ∧
    (∀ m : Nat, fs.stat path = some m →
      (S_ISDIR m = true → determine_request_type fs path = REQUEST_BROWSE) ∧
      (S_ISREG m = true → fs.access path X_OK = true →
        determine_request_type fs path = REQUEST_CGI) ∧
      (S_ISREG m = true → fs.access path X_OK = false → fs.access path R_OK = true →
        determine_request_type fs path = REQUEST_FILE) ∧
      (S_ISREG m = true → fs.access path X_OK = false → fs.access path R_OK = false →
        determine_request_type fs path = REQUEST_BAD) ∧
      (S_ISDIR m = false → S_ISREG m = false →
        determine_request_type fs path = REQUEST_BAD)) := by
  have hexcl : ∀ m : Nat, S_ISREG m = true → S_ISDIR m = false := by
    intro m h
    simp only [S_ISREG, S_ISDIR, decide_eq_true_eq, decide_eq_false_iff_not] at h ⊢
    rw [h]
    decide
  refine ⟨?_, ?_⟩
  · intro h
    simp [determine_request_type, h]
  · intro m h
    refine ⟨?_, ?_, ?_, ?_, ?_⟩
    · intro hd
      simp [determine_request_type, h, hd]
    · intro hr hx
      simp [determine_request_type, h, hexcl m hr, hr, hx]
    · intro hr hx hrd
      simp [determine_request_type, h, hexcl m hr, hr, hx, hrd]
    · intro hr hx hrd
      simp [determine_request_type, h, hexcl m hr, hr, hx, hrd]
    · intro hd hr
      simp [determine_request_type, h, hd, hr]

open request_type in
/-- Witness for C7 in the example file system: a missing file, the directory
`/srv/www`, the executable and readable `hello.cgi`, the readable `index.html`,
the inaccessible `locked` and the named pipe `fifo`. -/
theorem determine_request_type_cases_witness :
    determine_request_type fs_www "/srv/www/missing.txt".toList = REQUEST_BAD ∧
    determine_request_type fs_www "/srv/www".toList = REQUEST_BROWSE ∧
    determine_request_type fs_www "/srv/www/hello.cgi".toList = REQUEST_CGI ∧
    determine_request_type fs_www "/srv/www/index.html".toList = REQUEST_FILE ∧
    determine_request_type fs_www "/srv/www/locked".toList = REQUEST_BAD ∧
    determine_request_type fs_www "/srv/www/fifo".toList = REQUEST_BAD :=
  ⟨(determine_request_type_cases fs_www "/srv/www/missing.txt".toList).1 (by decide),
   ((determine_request_type_cases fs_www "/srv/www".toList).2 0o040755 (by decide)).1
      (by decide),
   ((determine_request_type_cases fs_www "/srv/www/hello.cgi".toList).2 0o100755
      (by decide)).2.1 (by decide) (by decide),
   ((determine_request_type_cases fs_www "/srv/www/index.html".toList).2 0o100644
      (by decide)).2.2.1 (by decide) (by decide) (by decide),
   ((determine_request_type_cases fs_www "/srv/www/locked".toList).2 0o100000
      (by decide)).2.2.2.1 (by decide) (by decide) (by decide),
   ((determine_request_type_cases fs_www "/srv/www/fifo".toList).2 0o010644
      (by decide)).2.2.2.2 (by decide) (by decide)⟩

/-! ### Writing to a socket stream in working order -/

theorem sound_mono (f : Stream) (n m : Nat) (h : f.sound n) (hm : m ≤ n) : f.sound m := by
  obtain ⟨k, hk, hu, hle⟩ := h
  exact ⟨k, hk, hu, by omega⟩

theorem store_sound (f : Stream) (n : Nat) (x : List Char) (h : f.sound n)
    (hx : x.length ≤ n) :
    Stream.sound { f with buffer := f.buffer ++ x } (n - x.length) ∧
    Stream.written { f with buffer := f.buffer ++ x } = f.written ++ x := by
  obtain ⟨k, hk, hu, hle⟩ := h
  refine ⟨⟨k, hk, hu, ?_⟩, ?_⟩
  · simp only [List.length_append]
    omega
  · simp only [Stream.written, List.append_assoc]

theorem send_sound (f : Stream) (n : Nat) (data : List Char) (h : f.sound n)
    (hb : f.buffer = []) (hd : data.length ≤ n) :
    (f.send data).1 = data.length ∧ (f.send data).2.sound (n - data.length) ∧
    (f.send data).2.written = f.written ++ data ∧ (f.send data).2.buffer = [] := by
  obtain ⟨k, hk, hu, hle⟩ := h
  have hdk : data.length ≤ k := by omega
  unfold Stream.send
  simp only [hk, hu, ne_eq, not_true_eq_false, if_false]
  refine ⟨Nat.min_eq_right hdk, ⟨k - data.length, rfl, hu, ?_⟩, ?_, trivial⟩
  · simp only [List.length_nil]
    rw [hb] at hle
    simp only [List.length_nil] at hle
    omega
  · simp only [Stream.written, hb, List.append_nil, List.take_of_length_le hdk]

theorem flush_sound (f : Stream) (n : Nat) (h : f.sound n) :
    f.flush.1 = true ∧ f.flush.2.sound n ∧ f.flush.2.written = f.written ∧
    f.flush.2.buffer = [] := by
  obtain ⟨k, hk, hu, hle⟩ := h
  unfold Stream.flush
  simp only [hk]
  by_cases hb : f.buffer = []
  · rw [if_pos hb]
    exact ⟨rfl, ⟨k, hk, hu, hle⟩, rfl, hb⟩
  · rw [if_neg hb]
    have hbk : f.buffer.length ≤ k := by omega
    unfold Stream.send
    simp only [hk, hu, ne_eq, not_true_eq_false, if_false]
    refine ⟨?_, ⟨k - f.buffer.length, rfl, hu, ?_⟩, ?_, trivial⟩
    · simp [Nat.min_eq_right hbk]
    · simp only [List.length_nil]
      omega
    · simp only [Stream.written, List.append_nil, List.take_of_length_le hbk]

theorem write_socket (f : Stream) (k : Nat) (data : List Char) (hk : f.room = some k) :
    f.write data =
      if data.length ≤ f.space then (data.length, { f with buffer := f.buffer ++ data })
      else
        match Stream.flush { f with buffer := f.buffer ++ data.take f.space } with
        | (false, f1) => (f.space, f1)
        | (true, f1) =>
          let rest := data.drop f.space
          let direct :=
            if 128 ≤ f.capacity then rest.length - rest.length % f.capacity
            else rest.length
          match f1.send (rest.take direct) with
          | (n, f2) =>
            if n < direct then (f.space + n, f2)
            else (data.length, { f2 with buffer := rest.drop direct }) := by
  unfold Stream.write
  split
  · rename_i h
    rw [hk] at h
    cases h
  · rfl

theorem write_sound (f : Stream) (n : Nat) (data : List Char) (h : f.sound n)
    (hd : data.length ≤ n) :
    (f.write data).1 = data.length ∧ (f.write data).2.sound (n - data.length) ∧
    (f.write data).2.written = f.written ++ data := by
  have hk := h
  obtain ⟨k, hk, -, -⟩ := hk
  rw [write_socket f k data hk]
  by_cases hfit : data.length ≤ f.space
  · rw [if_pos hfit]
    have hs := store_sound f n data h hd
    exact ⟨rfl, hs.1, hs.2⟩
  · rw [if_neg hfit]
    have hsp : f.space < data.length := Nat.lt_of_not_le hfit
    have htl : (data.take f.space).length = f.space := by
      rw [List.length_take]
      omega
    have h1 := store_sound f n (data.take f.space) h (by omega)
    have h2 := flush_sound _ _ h1.1
    cases hfl : Stream.flush { f with buffer := f.buffer ++ data.take f.space } with
    | mk ok g =>
      rw [hfl] at h2
      simp only at h2
      obtain ⟨hok, hg, hgw, hgb⟩ := h2
      subst hok
      simp only
      have hdl : (if 128 ≤ f.capacity then
            (List.drop f.space data).length - (List.drop f.space data).length % f.capacity
          else (List.drop f.space data).length) ≤ (List.drop f.space data).length := by
        split_ifs
        · exact Nat.sub_le _ _
        · exact Nat.le_refl _
      generalize (if 128 ≤ f.capacity then
            (List.drop f.space data).length - (List.drop f.space data).length % f.capacity
          else (List.drop f.space data).length) = direct at hdl ⊢
      have hrl : (List.drop f.space data).length = data.length - f.space :=
        List.length_drop _ _
      have htd : ((List.drop f.space data).take direct).length = direct := by
        rw [List.length_take]
        omega
      have h3 := send_sound g _ ((List.drop f.space data).take direct) hg hgb
        (by omega)
      cases hsd : g.send ((List.drop f.space data).take direct) with
      | mk m g2 =>
        rw [hsd] at h3
        simp only at h3
        obtain ⟨hm, hg2, hg2w, hg2b⟩ := h3
        have hnot : ¬ m < direct := by omega
        rw [if_neg hnot]
        have h4 := store_sound g2 _ ((List.drop f.space data).drop direct) hg2
          (by rw [List.length_drop]; omega)
        rw [hg2b, List.nil_append] at h4
        refine ⟨rfl, sound_mono _ _ _ h4.1 ?_, ?_⟩
        · rw [List.length_drop]
          omega
        · rw [h4.2, hg2w, hgw, h1.2]
          simp only [List.append_assoc, List.take_append_drop]

theorem fprintf_sound (f0 : Stream) (acc : List Char) (n : Nat) (f : Stream)
    (text : List Char)
    (h : f.sound (text.length + n) ∧ f.written = f0.written ++ acc) :
    (fprintf f text).sound n ∧ (fprintf f text).written = f0.written ++ (acc ++ text) := by
  have hw := write_sound f (text.length + n) text h.1 (Nat.le_add_right _ _)
  unfold fprintf
  refine ⟨sound_mono _ _ _ hw.2.1 (by omega), ?_⟩
  rw [hw.2.2, h.2, List.append_assoc]

theorem fflush_sound (f : Stream) (n : Nat) (h : f.sound n) :
    (fflush f).output = f.written := by
  have hf := flush_sound f n h
  unfold fflush
  have hw := hf.2.2.1
  unfold Stream.written at hw
  rw [hf.2.2.2, List.append_nil] at hw
  exact hw

theorem handle_error_sound (p : Process) (r : request) (status : http_status)
    (h : r.file.sound (error_page (http_status_string status) (shown_uri r.uri)).length) :
    (handle_error p r status).2.2.file.output =
      r.file.written ++ error_page (http_status_string status) (shown_uri r.uri) := by
  have hshown : (match r.uri with
      | some uri => uri
      | none => ['/']) = shown_uri r.uri := rfl
  unfold handle_error
  simp only [hshown]
  have h7 := fprintf_sound r.file _ 0 _ "</body></html>\n".toList
    (fprintf_sound r.file _ _ _
      ("<p>The requested URL ".toList ++ shown_uri r.uri ++
        " resulted in an error.</p>\n".toList)
    (fprintf_sound r.file _ _ _
      ("<h1>".toList ++ http_status_string status ++ "</h1>\n".toList)
    (fprintf_sound r.file _ _ _
      ("<html><head><title>".toList ++ http_status_string status ++
        "</title></head><body>\n".toList)
    (fprintf_sound r.file _ _ _ "\r\n".toList
    (fprintf_sound r.file _ _ _ "Content-Type: text/html\r\n".toList
    (fprintf_sound r.file [] _ r.file
      ("HTTP/1.0 ".toList ++ http_status_string status ++ "\r\n".toList)
      ⟨sound_mono _ _ _ h (by
          simp only [error_page, List.length_append]
          omega),
        (List.append_nil _).symm⟩))))))
  rw [fflush_sound _ 0 h7.1, h7.2]
  simp only [error_page, List.nil_append, List.append_assoc]

/-! ### The error page -/

theorem handle_error_output (p : Process) (r : request) (status : http_status)
    (hroom : r.file.room = none) :
    (handle_error p r status).2.2.file.output =
      r.file.output ++ error_page (http_status_string status)
        (match r.uri with
          | some uri => uri
          | none => ['/']) := by
  unfold handle_error
  rw [stream_eta_room_none r.file hroom]
  simp only [fprintf_room_none, fflush_room_none, error_page, List.append_assoc]

theorem parse_request_uri (cfg : Config) (r : request) (line rest : List Char)
    (hnl : '\n' ∉ line) (hnul : '\x00' ∉ line) (hfit : line.length + 2 < cfg.BUFSIZ)
    (hin : r.file.input = line ++ '\r' :: '\n' :: rest) :
    (parse_request cfg r).2.uri =
      (match tokens line with
        | _ :: T :: _ :: _ => some (before_first '?' T)
        | _ => r.uri) ∧
    (parse_request cfg r).2.file.output = r.file.output ∧
    (parse_request cfg r).2.file.room = r.file.room := by
  unfold parse_request
  rw [parse_request_method_line cfg r line rest hnl hnul hfit hin]
  match htok : tokens line with
  | [] => simp
  | [m] => simp
  | [m, u] => simp
  | m :: T :: v :: tl =>
    simp only [Int.lt_irrefl, if_false, strchr_before_first]
    unfold parse_request_headers
    have hrc := parse_request_headers_loop_rc cfg
      (({ r with file := { r.file with input := rest }, method := some m,
                 uri := some (before_first '?' T), query := some (after_first '?' T),
                 path := some (before_first '?' T) } : request).file.input.length + 1)
      { r with file := { r.file with input := rest }, method := some m,
               uri := some (before_first '?' T), query := some (after_first '?' T),
               path := some (before_first '?' T) } (Nat.lt_succ_self _)
    have hsame := parse_request_headers_loop_same cfg
      (({ r with file := { r.file with input := rest }, method := some m,
                 uri := some (before_first '?' T), query := some (after_first '?' T),
                 path := some (before_first '?' T) } : request).file.input.length + 1)
      { r with file := { r.file with input := rest }, method := some m,
               uri := some (before_first '?' T), query := some (after_first '?' T),
               path := some (before_first '?' T) }
    simp only [hrc, Int.lt_irrefl, if_false]
    exact ⟨hsame.2.1, hsame.2.2.2.2.2.2.1, hsame.2.2.2.2.2.2.2⟩

/-- Counterexample for C8: for `GET /missing.txt?lang=en HTTP/1.0` the 404 page
names `/missing.txt`, and the target `/missing.txt?lang=en` the client sent
occurs nowhere in the response; for the request line `GET /missing.txt`, which
does not parse and after which the client sent nothing, the 400 page names `/`
and the target `/missing.txt` occurs nowhere in the response. Both hold on a
stream that accepts every write and on a socket stream whose peer takes the
whole response. -/
theorem handle_error_echo_counterexample :
    (handle_request cfg_www fs_www fresh_process
      (request_of "GET /missing.txt?lang=en HTTP/1.0\r\n\r\n")).2.2.file.output
      = error_page "404 Not Found".toList "/missing.txt".toList ∧
    ¬ ("/missing.txt?lang=en".toList <:+:
        (handle_request cfg_www fs_www fresh_process
          (request_of "GET /missing.txt?lang=en HTTP/1.0\r\n\r\n")).2.2.file.output) ∧
    (handle_request cfg_www fs_www fresh_process
      (request_of "GET /missing.txt\r\n")).2.2.file.output
      = error_page "400 Bad Request".toList "/".toList ∧
    ¬ ("/missing.txt".toList <:+:
        (handle_request cfg_www fs_www fresh_process
          (request_of "GET /missing.txt\r\n")).2.2.file.output) ∧
    (handle_request cfg_www fs_www fresh_process
      (request_with_room "GET /missing.txt?lang=en HTTP/1.0\r\n\r\n"
        100000)).2.2.file.output
      = error_page "404 Not Found".toList "/missing.txt".toList ∧
    (handle_request cfg_www fs_www fresh_process
      (request_with_room "GET /missing.txt\r\n" 100000)).2.2.file.output
      = error_page "400 Bad Request".toList "/".toList := by
  set_option maxRecDepth 100000 in decide

/-- C8, amended: on a request freshly read from a connection, whether the
stream accepts every write or is a socket stream in working order for the
length of the page, the response written by `handle_error` is the error page
for the text of the status ("<code> <reason>" in the status line, the title and
the heading) and for the `uri` field `parse_request` left: the second token of
the request line cut at its first `?` when the line has three tokens or more,
and `/` when it has fewer. -/
theorem handle_error_echo (cfg : Config) (p : Process) (r : request)
    (status : http_status) (line rest : List Char)
    (huri : r.uri = none)
    (hnl : '\n' ∉ line) (hnul : '\x00' ∉ line) (hfit : line.length + 2 < cfg.BUFSIZ)
    (hin : r.file.input = line ++ '\r' :: '\n' :: rest) :
    (handle_error p (parse_request cfg r).2 status).1 = status ∧
    (r.file.room = none →
      (handle_error p (parse_request cfg r).2 status).2.2.file.output =
        r.file.output ++ error_page (http_status_string status)
          (match tokens line with
            | _ :: T :: _ :: _ => before_first '?' T
            | _ => ['/'])) ∧
    ((parse_request cfg r).2.file.sound
        (error_page (http_status_string status)
          (match tokens line with
            | _ :: T :: _ :: _ => before_first '?' T
            | _ => ['/'])).length →
      (handle_error p (parse_request cfg r).2 status).2.2.file.output =
        (parse_request cfg r).2.file.written ++ error_page (http_status_string status)
          (match tokens line with
            | _ :: T :: _ :: _ => before_first '?' T
            | _ => ['/'])) := by
  have hparse := parse_request_uri cfg r line rest hnl hnul hfit hin
  have htarget : shown_uri (parse_request cfg r).2.uri =
      (match tokens line with
        | _ :: T :: _ :: _ => before_first '?' T
        | _ => ['/']) := by
    rw [hparse.1, huri]
    match htok : tokens line with
    | [] => rfl
    | [m] => rfl
    | [m, u] => rfl
    | m :: T :: v :: tl => rfl
  refine ⟨rfl, ?_, ?_⟩
  · intro hroom
    rw [handle_error_output p _ status (hparse.2.2.trans hroom), hparse.2.1]
    exact congrArg (fun t => r.file.output ++ error_page (http_status_string status) t)
      htarget
  · intro hsound
    rw [← htarget] at hsound ⊢
    exact handle_error_sound p _ status hsound

open http_status in
/-- Witness for the amended C8: the 404 page for `GET /missing.txt HTTP/1.0`
names `/missing.txt`, on the stream that accepts every write and on a socket
stream whose peer takes 100000 bytes; and the 400 page for the request line
`GET /missing.txt`, which does not parse, names `/`. -/
theorem handle_error_echo_witness :
    (handle_error fresh_process
      (parse_request cfg_www (request_of "GET /missing.txt HTTP/1.0\r\n\r\n")).2
      HTTP_STATUS_NOT_FOUND).2.2.file.output
      = error_page "404 Not Found".toList "/missing.txt".toList ∧
    (handle_error fresh_process
      (parse_request cfg_www (request_of "GET /missing.txt\r\n")).2
      HTTP_STATUS_BAD_REQUEST).2.2.file.output
      = error_page "400 Bad Request".toList "/".toList ∧
    (handle_error fresh_process
      (parse_request cfg_www
        (request_with_room "GET /missing.txt HTTP/1.0\r\n\r\n" 100000)).2
      HTTP_STATUS_NOT_FOUND).2.2.file.output
      = error_page "404 Not Found".toList "/missing.txt".toList :=
  ⟨((handle_error_echo cfg_www fresh_process
      (request_of "GET /missing.txt HTTP/1.0\r\n\r\n") HTTP_STATUS_NOT_FOUND
      "GET /missing.txt HTTP/1.0".toList "\r\n".toList
      (by decide) (by decide) (by decide) (by decide) (by decide)).2.1
      (by decide)).trans
      (by set_option maxRecDepth 100000 in decide),
   ((handle_error_echo cfg_www fresh_process
      (request_of "GET /missing.txt\r\n") HTTP_STATUS_BAD_REQUEST
      "GET /missing.txt".toList []
      (by decide) (by decide) (by decide) (by decide) (by decide)).2.1
      (by decide)).trans
      (by set_option maxRecDepth 100000 in decide),
   ((handle_error_echo cfg_www fresh_process
      (request_with_room "GET /missing.txt HTTP/1.0\r\n\r\n" 100000)
      HTTP_STATUS_NOT_FOUND
      "GET /missing.txt HTTP/1.0".toList "\r\n".toList
      (by decide) (by decide) (by decide) (by decide) (by decide)).2.2
      ⟨100000, by set_option maxRecDepth 100000 in decide,
        by set_option maxRecDepth 100000 in decide,
        by set_option maxRecDepth 100000 in decide⟩).trans
      (by set_option maxRecDepth 100000 in decide)⟩

/-! ### The order of `strcmp` -/

theorem char_toNat_ne {a b : Char} (h : a ≠ b) : (a.toNat : Int) ≠ (b.toNat : Int) := by
  intro h0
  exact char_toNat_sub_ne_zero h (by omega)

theorem strcmp_total (a b : CStr) : strcmp a b ≤ 0 ∨ strcmp b a ≤ 0 := by
  induction a generalizing b with
  | nil =>
    cases b with
    | nil => simp [strcmp]
    | cons y ys => left; simp only [strcmp]; omega
  | cons x xs ih =>
    cases b with
    | nil => right; simp only [strcmp]; omega
    | cons y ys =>
      by_cases hxy : x = y
      · subst hxy
        by_cases hx : x = '\x00'
        · simp [strcmp, hx]
        · simpa [strcmp, hx] using ih ys
      · have hyx : y ≠ x := fun h => hxy h.symm
        simp only [strcmp, ne_eq, hxy, hyx, not_false_eq_true, if_true]
        omega

theorem strcmp_trans (a b c : CStr) (hab : strcmp a b ≤ 0) (hbc : strcmp b c ≤ 0) :
    strcmp a c ≤ 0 := by
  induction a generalizing b c with
  | nil =>
    cases c with
    | nil => simp [strcmp]
    | cons z zs => simp only [strcmp]; omega
  | cons x xs ih =>
    have hx0 := @char_toNat_eq_zero x
    cases b with
    | nil =>
      have hx : x = '\x00' := hx0.mp (by simp only [strcmp] at hab; omega)
      cases c with
      | nil => simpa [strcmp] using hab
      | cons z zs =>
        by_cases hxz : x = z
        · simp [strcmp, hxz.symm, hx]
        · simp only [strcmp, ne_eq, hxz, not_false_eq_true, if_true]
          have : (x.toNat : Int) = 0 := hx0.mpr hx
          omega
    | cons y ys =>
      have hy0 := @char_toNat_eq_zero y
      cases c with
      | nil =>
        have hy : (y.toNat : Int) = 0 := by simp only [strcmp] at hbc; omega
        simp only [strcmp] at hab ⊢
        by_cases hxy : x = y
        · rw [hxy]; omega
        · simp only [ne_eq, hxy, not_false_eq_true, if_true] at hab
          omega
      | cons z zs =>
        by_cases hxy : x = y
        · subst hxy
          by_cases hxz : x = z
          · subst hxz
            by_cases hx : x = '\x00'
            · simp [strcmp, hx]
            · simp only [strcmp, ne_eq, not_true_eq_false, if_false, hx] at hab hbc ⊢
              exact ih ys zs hab hbc
          · simp only [strcmp, ne_eq, hxz, not_false_eq_true, if_true] at hbc ⊢
            exact hbc
        · have h1 := char_toNat_ne hxy
          simp only [strcmp, ne_eq, hxy, not_false_eq_true, if_true] at hab
          by_cases hyz : y = z
          · subst hyz
            simp only [strcmp, ne_eq, hxy, not_false_eq_true, if_true]
            exact hab
          · have h2 := char_toNat_ne hyz
            simp only [strcmp, ne_eq, hyz, not_false_eq_true, if_true] at hbc
            have hxz : x ≠ z := by
              rintro rfl
              omega
            simp only [strcmp, ne_eq, hxz, not_false_eq_true, if_true]
            omega

theorem strcmp_le_iff_byte_le (a b : CStr) (ha : '\x00' ∉ a) (hb : '\x00' ∉ b) :
    strcmp a b ≤ 0 ↔ byte_le a b = true := by
  induction a generalizing b with
  | nil =>
    cases b with
    | nil => simp [strcmp, byte_le]
    | cons y ys =>
      have h1 : strcmp [] (y :: ys) ≤ 0 := by simp only [strcmp]; omega
      have h2 : byte_le [] (y :: ys) = true := rfl
      exact ⟨fun _ => h2, fun _ => h1⟩
  | cons x xs ih =>
    have hx : x ≠ '\x00' := fun h => ha (by simp [h])
    have hxs : '\x00' ∉ xs := fun h => ha (by simp [h])
    cases b with
    | nil =>
      have : (x.toNat : Int) ≠ 0 := fun h => hx (char_toNat_eq_zero.mp h)
      simp only [strcmp, byte_le]
      constructor
      · intro h; omega
      · intro h; exact absurd h (by simp)
    | cons y ys =>
      have hys : '\x00' ∉ ys := fun h => hb (by simp [h])
      by_cases hxy : x = y
      · subst hxy
        simp only [strcmp, ne_eq, not_true_eq_false, if_false, hx, byte_le, Nat.lt_irrefl,
          decide_False, Bool.false_or, decide_True, Bool.true_and]
        exact ih ys hxs hys
      · have h1 := char_toNat_ne hxy
        simp only [strcmp, ne_eq, hxy, not_false_eq_true, if_true, byte_le, decide_False,
          Bool.false_and, Bool.or_false, decide_eq_true_eq]
        omega

theorem strcmp_eq_zero_iff (a b : CStr) (ha : '\x00' ∉ a) (hb : '\x00' ∉ b) :
    strcmp a b = 0 ↔ a = b := by
  induction a generalizing b with
  | nil =>
    cases b with
    | nil => simp [strcmp]
    | cons y ys =>
      have hy : y ≠ '\x00' := fun h => hb (by simp [h])
      have : (y.toNat : Int) ≠ 0 := fun h => hy (char_toNat_eq_zero.mp h)
      simp only [strcmp]
      constructor
      · intro h; omega
      · intro h; simp at h
  | cons x xs ih =>
    have hx : x ≠ '\x00' := fun h => ha (by simp [h])
    have hxs : '\x00' ∉ xs := fun h => ha (by simp [h])
    have hx0 : (x.toNat : Int) ≠ 0 := fun h => hx (char_toNat_eq_zero.mp h)
    cases b with
    | nil =>
      simp only [strcmp]
      constructor
      · intro h; omega
      · intro h; simp at h
    | cons y ys =>
      have hys : '\x00' ∉ ys := fun h => hb (by simp [h])
      by_cases hxy : x = y
      · subst hxy
        simp only [strcmp, ne_eq, not_true_eq_false, if_false, hx, List.cons.injEq, true_and]
        exact ih ys hxs hys
      · have h1 := char_toNat_ne hxy
        simp only [strcmp, ne_eq, hxy, not_false_eq_true, if_true, List.cons.injEq, false_and,
          iff_false]
        omega

/-! ### The directory listing -/

theorem browse_entry_listed (uri : Option CStr) (i o b : List Char) (c tot : Nat) (fl : Bool)
    (name : CStr) (hname : '\x00' ∉ name) :
    browse_entry uri (Stream.mk i o none b c tot fl)
        name =
      Stream.mk i
        (o ++ (if listed name then browse_item (browse_link uri name) name else []))
        none b c tot fl := by
  have h1 := strcmp_eq_zero_iff name ['.'] hname (by decide)
  have h2 := strcmp_eq_zero_iff name ['.', '.'] hname (by decide)
  unfold browse_entry
  by_cases hd : name = ['.']
  · have hc : strcmp name ['.'] = 0 ∨ strcmp name ['.', '.'] = 0 := Or.inl (h1.mpr hd)
    rw [if_pos hc]
    simp [hd, listed]
  · by_cases hdd : name = ['.', '.']
    · have hc : strcmp name ['.'] = 0 ∨ strcmp name ['.', '.'] = 0 := Or.inr (h2.mpr hdd)
      rw [if_pos hc]
      simp [hdd, listed]
    · have hc : ¬ (strcmp name ['.'] = 0 ∨ strcmp name ['.', '.'] = 0) := by
        rintro (h | h)
        · exact hd (h1.mp h)
        · exact hdd (h2.mp h)
      rw [if_neg hc]
      simp [hd, hdd, listed, fprintf_room_none, browse_item]

theorem browse_entries_room_none (uri : Option CStr) (entries : List CStr)
    (hnames : ∀ n ∈ entries, '\x00' ∉ n) (i o b : List Char) (c tot : Nat) (fl : Bool) :
    entries.foldl (browse_entry uri)
        (Stream.mk i o none b c tot fl) =
      Stream.mk i
        (o ++ ((entries.filter listed).map
          (fun n => browse_item (browse_link uri n) n)).flatten)
        none b c tot fl := by
  induction entries generalizing o with
  | nil => simp
  | cons n ns ih =>
    have hn := hnames n (List.mem_cons_self _ _)
    have hns : ∀ x ∈ ns, '\x00' ∉ x := fun x hx => hnames x (List.mem_cons_of_mem _ hx)
    rw [List.foldl_cons, browse_entry_listed uri i o b c tot fl n hn, ih hns]
    by_cases hl : listed n = true
    · simp [hl, List.append_assoc]
    · simp [hl]

open http_status in
theorem handle_browse_request_output (fs : FileSystem) (p : Process) (r : request)
    (path : CStr) (sorted : List CStr)
    (hpath : r.path = some path)
    (hscan : scandir fs path = some sorted)
    (hnames : ∀ n ∈ sorted, '\x00' ∉ n)
    (hroom : r.file.room = none) :
    (handle_browse_request fs p r).1 = HTTP_STATUS_OK ∧
    (handle_browse_request fs p r).2.2.file.output =
      r.file.output ++ browse_page (shown_uri r.uri)
        (((sorted.filter listed).map (fun n => browse_item (browse_link r.uri n) n)).flatten) := by
  unfold handle_browse_request
  rw [stream_eta_room_none r.file hroom]
  simp only [hpath, Option.some_bind, hscan, fprintf_room_none,
    browse_entries_room_none r.uri sorted hnames, fflush_room_none]
  refine ⟨trivial, ?_⟩
  simp [browse_page, shown_uri, http_status_string, List.append_assoc]

open http_status in
/-- C9: for a directory that can be scanned and a stream that accepts every
write, `handle_browse_request` returns 200 OK and writes the listing page
(status line, `Content-Type: text/html`) whose list items are, each once, the
entries of the directory other than `.` and `..`, in ascending byte order;
when there is no such entry nothing stands between `<ul>` and `</ul>`. -/
theorem handle_browse_request_listing (fs : FileSystem) (p : Process) (r : request)
    (path : CStr) (entries : List CStr)
    (hpath : r.path = some path)
    (hdir : fs.readdir path = some entries)
    (hnames : ∀ n ∈ entries, '\x00' ∉ n)
    (hroom : r.file.room = none) :
    (handle_browse_request fs p r).1 = HTTP_STATUS_OK ∧
    (∃ items : List CStr,
      items.Perm (entries.filter listed) ∧
      items.Sorted (fun a b => byte_le a b = true) ∧
      (handle_browse_request fs p r).2.2.file.output =
        r.file.output ++ browse_page (shown_uri r.uri)
          ((items.map (fun n => browse_item (browse_link r.uri n) n)).flatten)) ∧
    (entries.filter listed = [] →
      (handle_browse_request fs p r).2.2.file.output =
        r.file.output ++ browse_page (shown_uri r.uri) []) := by
  have hscan : scandir fs path
      = some (List.insertionSort (fun a b => alphasort a b ≤ 0) entries) := by
    simp [scandir, hdir]
  have hperm := List.perm_insertionSort (fun a b => alphasort a b ≤ 0) entries
  have hnames' : ∀ n ∈ List.insertionSort (fun a b => alphasort a b ≤ 0) entries,
      '\x00' ∉ n := fun n hn => hnames n (hperm.mem_iff.mp hn)
  have hout := handle_browse_request_output fs p r path _ hpath hscan hnames' hroom
  have hsorted := @List.sorted_insertionSort CStr (fun a b => alphasort a b ≤ 0) _
    ⟨fun a b => strcmp_total a b⟩ ⟨fun a b c hab hbc => strcmp_trans a b c hab hbc⟩ entries
  have hfperm : ((List.insertionSort (fun a b => alphasort a b ≤ 0) entries).filter
      listed).Perm (entries.filter listed) := hperm.filter _
  refine ⟨hout.1, ⟨_, hfperm, ?_, hout.2⟩, ?_⟩
  · have hs := List.Sorted.filter listed hsorted
    refine List.Pairwise.imp_of_mem ?_ hs
    intro a b ha hb hab
    have ha' := hnames' a (List.mem_of_mem_filter ha)
    have hb' := hnames' b (List.mem_of_mem_filter hb)
    exact (strcmp_le_iff_byte_le a b ha' hb').mp hab
  · intro hempty
    rw [hout.2]
    have : (List.insertionSort (fun a b => alphasort a b ≤ 0) entries).filter listed = [] :=
      List.Perm.eq_nil (hempty ▸ hfperm)
    rw [this]
    rfl

open http_status in
/-- Witness for C9: the listing of `/srv/www` and the listing of the empty
directory `/srv/www/empty`. -/
theorem handle_browse_request_listing_witness :
    ((handle_browse_request fs_www fresh_process (resolved_request "/" "/srv/www")).1
        = HTTP_STATUS_OK ∧
      ∃ items : List CStr,
        items.Perm (www_entries.filter listed) ∧
        items.Sorted (fun a b => byte_le a b = true) ∧
        (handle_browse_request fs_www fresh_process
          (resolved_request "/" "/srv/www")).2.2.file.output =
          (resolved_request "/" "/srv/www").file.output ++
            browse_page (shown_uri (resolved_request "/" "/srv/www").uri)
              ((items.map (fun n => browse_item
                (browse_link (resolved_request "/" "/srv/www").uri n) n)).flatten)) ∧
    (handle_browse_request fs_www fresh_process
      (resolved_request "/empty" "/srv/www/empty")).2.2.file.output =
      (resolved_request "/empty" "/srv/www/empty").file.output ++
        browse_page (shown_uri (resolved_request "/empty" "/srv/www/empty").uri) [] :=
  ⟨⟨(handle_browse_request_listing fs_www fresh_process (resolved_request "/" "/srv/www")
        "/srv/www".toList www_entries (by decide) (by decide) (by decide) (by decide)).1,
    (handle_browse_request_listing fs_www fresh_process (resolved_request "/" "/srv/www")
        "/srv/www".toList www_entries (by decide) (by decide) (by decide) (by decide)).2.1⟩,
   (handle_browse_request_listing fs_www fresh_process
      (resolved_request "/empty" "/srv/www/empty") "/srv/www/empty".toList
      ["..".toList, ".".toList] (by decide) (by decide) (by decide) (by decide)).2.2
      (by decide)⟩

/-! ### Hyperlinks of the listing -/

theorem charAt_last (c : Char) (cs : CStr) :
    charAt (c :: cs) ((c :: cs).length - 1) = (c :: cs).getLast (List.cons_ne_nil c cs) := by
  rw [List.getLast_eq_getElem]
  simp [charAt, List.getD_eq_getElem?_getD]

theorem browse_link_eq_link_target (U N : CStr) :
    browse_link (some U) N = link_target U N := by
  cases U with
  | nil => simp [browse_link, link_target, charAt]
  | cons c cs =>
    have hlast : (c :: cs).getLast? = some ((c :: cs).getLast (List.cons_ne_nil c cs)) :=
      List.getLast?_eq_getLast _ _
    simp only [browse_link, link_target, charAt_last, hlast]
    by_cases h : (c :: cs).getLast (List.cons_ne_nil c cs) = '/'
    · simp [h, hlast]
    · simp [h, hlast]

/-- C10: in the listing `handle_browse_request` writes for the request uri `U`,
the hyperlink of every listed entry `N` has the target `link_target U N`, that
is `U ++ N` when `U` ends with `/` and `U ++ "/" ++ N` otherwise, an empty `U`
counting as `/`. -/
theorem handle_browse_request_links (fs : FileSystem) (p : Process) (r : request)
    (path U : CStr) (sorted : List CStr)
    (huri : r.uri = some U)
    (hpath : r.path = some path)
    (hscan : scandir fs path = some sorted)
    (hnames : ∀ n ∈ sorted, '\x00' ∉ n)
    (hroom : r.file.room = none) :
    (handle_browse_request fs p r).2.2.file.output =
      r.file.output ++ browse_page U
        (((sorted.filter listed).map (fun N => browse_item (link_target U N) N)).flatten) := by
  rw [(handle_browse_request_output fs p r path sorted hpath hscan hnames hroom).2, huri]
  simp only [browse_link_eq_link_target, shown_uri]

/-- Witness for C10: the entry `a.txt` of `/srv/www/docs` is linked as
`/docs/a.txt` both under the uri `/docs` and under the uri `/docs/`. -/
theorem handle_browse_request_links_witness :
    (handle_browse_request fs_www fresh_process
      (resolved_request "/docs" "/srv/www/docs")).2.2.file.output =
      browse_page "/docs".toList (browse_item "/docs/a.txt".toList "a.txt".toList) ∧
    (handle_browse_request fs_www fresh_process
      (resolved_request "/docs/" "/srv/www/docs")).2.2.file.output =
      browse_page "/docs/".toList (browse_item "/docs/a.txt".toList "a.txt".toList) :=
  ⟨(handle_browse_request_links fs_www fresh_process
      (resolved_request "/docs" "/srv/www/docs") "/srv/www/docs".toList "/docs".toList
      [".".toList, "..".toList, "a.txt".toList]
      (by decide) (by decide) (by decide) (by decide) (by decide)).trans
      (by set_option maxRecDepth 100000 in decide),
   (handle_browse_request_links fs_www fresh_process
      (resolved_request "/docs/" "/srv/www/docs") "/srv/www/docs".toList "/docs/".toList
      [".".toList, "..".toList, "a.txt".toList]
      (by decide) (by decide) (by decide) (by decide) (by decide)).trans
      (by set_option maxRecDepth 100000 in decide)⟩

/-! ### The environment of a script -/

theorem cgi_env_char_eq (c : Char) :
    cgi_env_char c = if c.isLower then c.toUpper else if c = '-' then '_' else c := by
  have hle : ('a' ≤ c ∧ c ≤ 'z') ↔ c.isLower = true := by
    simp [Char.isLower, Char.le_def, UInt32.le_def]
  by_cases hl : c.isLower = true
  · have hc : c = Char.ofNat c.toNat := (Char.ofNat_toNat c).symm
    have hn : 97 ≤ c.toNat ∧ c.toNat ≤ 122 := by
      simpa [Char.isLower, UInt32.le_def, Char.toNat] using hl
    generalize c.toNat = n at hc hn
    subst hc
    obtain ⟨h1, h2⟩ := hn
    interval_cases n <;> decide
  · have hl' : ¬ ('a' ≤ c ∧ c ≤ 'z') := fun h => hl (hle.mp h)
    simp only [cgi_env_char, hl', if_false, hl]
    simp

theorem http_variable_eq (name : CStr) :
    "HTTP_".toList ++ name.map cgi_env_char = http_variable name := by
  unfold http_variable
  congr 1
  apply List.map_congr_left
  intro c _
  exact cgi_env_char_eq c

theorem getenv_cons (kv : CStr × CStr) (rest : Env) (n : CStr) :
    getenv (kv :: rest) n = if kv.1 = n then some kv.2 else getenv rest n := by
  by_cases h : kv.1 = n
  · simp [getenv, List.find?_cons, h]
  · simp [getenv, List.find?_cons, h]

theorem getenv_map_replace (env : Env) (n v : CStr) :
    getenv (env.map (fun kv => if kv.1 = n then (n, v) else kv)) n =
      if env.any (fun kv => decide (kv.1 = n)) then some v else none := by
  induction env with
  | nil => rfl
  | cons kv rest ih =>
    rw [List.map_cons, getenv_cons, ih, List.any_cons]
    by_cases h : kv.1 = n
    · simp [h]
    · have hd : decide (kv.1 = n) = false := by simpa using h
      rw [hd, Bool.false_or]
      simp [h]

theorem getenv_eq_none_of_not_any (env : Env) (n : CStr)
    (h : env.any (fun kv => decide (kv.1 = n)) = false) : getenv env n = none := by
  induction env with
  | nil => rfl
  | cons kv rest ih =>
    simp only [List.any_cons, Bool.or_eq_false_iff, decide_eq_false_iff_not] at h
    rw [getenv_cons, if_neg h.1, ih h.2]

theorem getenv_append (env env2 : Env) (n : CStr) :
    getenv (env ++ env2) n = (getenv env n).or (getenv env2 n) := by
  induction env with
  | nil =>
    have h0 : getenv ([] : Env) n = none := rfl
    rw [List.nil_append, h0]
    rfl
  | cons kv rest ih =>
    rw [List.cons_append, getenv_cons, getenv_cons, ih]
    by_cases h : kv.1 = n
    · simp [h]
    · simp [h]

theorem getenv_setenv_self (env : Env) (n v : CStr) (hn : n ≠ []) (heq : '=' ∉ n) :
    getenv (setenv env n v) n = some v := by
  unfold setenv
  rw [if_neg (by simp [hn, heq])]
  by_cases hany : env.any (fun kv => decide (kv.1 = n)) = true
  · rw [if_pos hany, getenv_map_replace, if_pos hany]
  · have hany' : env.any (fun kv => decide (kv.1 = n)) = false := by
      cases hb : env.any (fun kv => decide (kv.1 = n))
      · rfl
      · exact absurd hb hany
    rw [if_neg hany, getenv_append, getenv_eq_none_of_not_any env n hany', getenv_cons]
    simp

theorem getenv_map_replace_ne (env : Env) (n m v : CStr) (h : m ≠ n) :
    getenv (env.map (fun kv => if kv.1 = n then (n, v) else kv)) m = getenv env m := by
  induction env with
  | nil => rfl
  | cons kv rest ih =>
    rw [List.map_cons, getenv_cons, getenv_cons, ih]
    by_cases hk : kv.1 = n
    · have hkm : ¬ kv.1 = m := fun h2 => h (h2.symm.trans hk)
      have hnm : ¬ n = m := fun h2 => h h2.symm
      simp [hk, hkm, hnm]
    · simp [hk]

theorem getenv_setenv_ne (env : Env) (n m v : CStr) (h : m ≠ n) :
    getenv (setenv env n v) m = getenv env m := by
  unfold setenv
  split_ifs with h1 h2
  · rfl
  · exact getenv_map_replace_ne env n m v h
  · rw [getenv_append, getenv_cons]
    have hnm : ¬ n = m := fun h2 => h h2.symm
    simp only [hnm, if_false]
    cases getenv env m <;> rfl

theorem nodup_setenv (env : Env) (n v : CStr) (h : (env.map Prod.fst).Nodup) :
    ((setenv env n v).map Prod.fst).Nodup := by
  unfold setenv
  split_ifs with h1 h2
  · exact h
  · have : (env.map (fun kv => if kv.1 = n then (n, v) else kv)).map Prod.fst
        = env.map Prod.fst := by
      rw [List.map_map]
      apply List.map_congr_left
      intro kv _
      by_cases hk : kv.1 = n
      · simp [hk]
      · simp [hk]
    rw [this]
    exact h
  · rw [List.map_append, List.nodup_append]
    refine ⟨h, by simp, ?_⟩
    intro a ha hb
    simp only [List.map_cons, List.map_nil, List.mem_singleton] at hb
    subst hb
    apply h2
    obtain ⟨kv, hkv, rfl⟩ := List.mem_map.mp ha
    exact List.any_eq_true.mpr ⟨kv, hkv, by simp⟩

theorem export_headers_append (cfg : Config) (pre post : List header) (env : Env) :
    export_headers cfg (pre ++ post) env
      = export_headers cfg post (export_headers cfg pre env) := by
  induction pre generalizing env with
  | nil => rfl
  | cons h hs ih =>
    simp only [List.cons_append, export_headers]
    split_ifs
    · exact ih env
    · exact ih _

theorem getenv_export_headers_ne (cfg : Config) (hs : List header) (env : Env) (m : CStr)
    (h : ∀ x ∈ hs, http_variable x.name ≠ m) :
    getenv (export_headers cfg hs env) m = getenv env m := by
  induction hs generalizing env with
  | nil => rfl
  | cons x xs ih =>
    have hx : m ≠ http_variable x.name := fun e => h x (List.mem_cons_self _ _) e.symm
    have hxs : ∀ y ∈ xs, http_variable y.name ≠ m :=
      fun y hy => h y (List.mem_cons_of_mem _ hy)
    simp only [export_headers]
    split_ifs
    · exact ih env hxs
    · rw [ih _ hxs, http_variable_eq, getenv_setenv_ne _ _ _ _ hx]

theorem nodup_export_headers (cfg : Config) (hs : List header) (env : Env)
    (h : (env.map Prod.fst).Nodup) : ((export_headers cfg hs env).map Prod.fst).Nodup := by
  induction hs generalizing env with
  | nil => exact h
  | cons x xs ih =>
    simp only [export_headers]
    split_ifs
    · exact ih env h
    · exact ih _ (nodup_setenv _ _ _ h)

theorem http_variable_ne_nil (name : CStr) : http_variable name ≠ [] := by
  simp [http_variable]

theorem eq_not_mem_http_variable (name : CStr) (h : '=' ∉ name) :
    '=' ∉ http_variable name := by
  unfold http_variable
  simp only [List.mem_append, List.mem_map, not_or, not_exists, not_and]
  refine ⟨by decide, ?_⟩
  intro c hc
  have hne : c ≠ '=' := fun e => h (e ▸ hc)
  rw [← cgi_env_char_eq]
  intro heq
  by_cases hl : 'a' ≤ c ∧ c ≤ 'z'
  · have hc2 : c = Char.ofNat c.toNat := (Char.ofNat_toNat c).symm
    have hn : 97 ≤ c.toNat ∧ c.toNat ≤ 122 := by
      simpa [Char.le_def, UInt32.le_def, Char.toNat] using hl
    generalize c.toNat = n at hc2 hn
    subst hc2
    obtain ⟨h1, h2⟩ := hn
    revert heq
    interval_cases n <;> decide
  · simp only [cgi_env_char, hl, if_false] at heq
    split_ifs at heq with h3
    · exact absurd heq (by decide)
    · exact hne heq

theorem getenv_export_headers_last (cfg : Config) (pre post : List header) (h : header)
    (env : Env)
    (heq : '=' ∉ h.name) (hfit : 5 + h.name.length < cfg.PATH_MAX)
    (hlast : ∀ x ∈ post, http_variable x.name ≠ http_variable h.name) :
    getenv (export_headers cfg (pre ++ h :: post) env) (http_variable h.name)
      = some h.value := by
  rw [export_headers_append]
  simp only [export_headers]
  rw [if_neg (by omega), getenv_export_headers_ne cfg post _ _ hlast, http_variable_eq,
    getenv_setenv_self _ _ _ (http_variable_ne_nil _) (eq_not_mem_http_variable _ heq)]

theorem exists_last_of_mem {α : Type} (P : α → Prop) (l : List α) (x : α) (hx : x ∈ l)
    (hP : P x) : ∃ pre y post, l = pre ++ y :: post ∧ P y ∧ ∀ z ∈ post, ¬ P z := by
  induction l generalizing x with
  | nil => simp at hx
  | cons a t ih =>
    by_cases ht : ∃ z ∈ t, P z
    · obtain ⟨z, hz, hPz⟩ := ht
      obtain ⟨pre, y, post, hl, hy, hpost⟩ := ih z hz hPz
      exact ⟨a :: pre, y, post, by rw [hl]; rfl, hy, hpost⟩
    · have hxa : x = a := by
        rcases List.mem_cons.mp hx with h | h
        · exact h
        · exact absurd ⟨x, h, hP⟩ ht
      refine ⟨[], a, t, rfl, hxa ▸ hP, ?_⟩
      intro z hz hPz
      exact ht ⟨z, hz, hPz⟩

theorem nodup_cgi_request_variables (cfg : Config) (env : Env) (r : request)
    (h : (env.map Prod.fst).Nodup) :
    ((cgi_request_variables cfg env r).map Prod.fst).Nodup := by
  obtain ⟨file, method, uri, path, query, headers, host, port⟩ := r
  unfold cgi_request_variables
  cases method <;> cases uri <;> cases path <;> simp only <;> split_ifs <;>
    (repeat' apply nodup_setenv) <;> exact h

/-- Counterexample for C11: the request holds the headers (`Accept`,
`text/html`), (`Accept`, `text/plain`) and (`A=B`, `c`); after the script
request the variable `HTTP_ACCEPT` holds `text/plain`, so the value of the first
header is in no variable, and there is no variable `HTTP_A=B`. -/
theorem cgi_environment_header_counterexample :
    (parse_request cfg_www (request_of
        "GET /hello.cgi HTTP/1.0\r\nAccept: text/html\r\nAccept: text/plain\r\nA=B: c\r\n\r\n")).2.headers
      = [{ name := "Accept".toList, value := "text/html".toList },
         { name := "Accept".toList, value := "text/plain".toList },
         { name := "A=B".toList, value := "c".toList }] ∧
    http_variable "Accept".toList = "HTTP_ACCEPT".toList ∧
    getenv (handle_request cfg_www fs_www fresh_process (request_of
        "GET /hello.cgi HTTP/1.0\r\nAccept: text/html\r\nAccept: text/plain\r\nA=B: c\r\n\r\n")).2.1.env
      "HTTP_ACCEPT".toList = some "text/plain".toList ∧
    getenv (handle_request cfg_www fs_www fresh_process (request_of
        "GET /hello.cgi HTTP/1.0\r\nAccept: text/html\r\nAccept: text/plain\r\nA=B: c\r\n\r\n")).2.1.env
      (http_variable "A=B".toList) = none := by
  set_option maxRecDepth 100000 in decide

/-- C11, amended: for every header of the request whose name holds no `=` and
is shorter than `PATH_MAX - 5`, after the environment set-up of
`handle_cgi_request` the environment has a variable named `HTTP_` followed by
the name with lower-case ASCII letters upper-cased and `-` replaced by `_`; its
value is the value of a header of the list exported under that name, and it is
the header's own value, verbatim, when no later header of the list is exported
under the same name. An environment with one variable per name stays so. -/
theorem cgi_environment_header_variable (cfg : Config) (env : Env) (r : request)
    (h : header) (hmem : h ∈ r.headers)
    (heq : '=' ∉ h.name) (hfit : 5 + h.name.length < cfg.PATH_MAX) :
    (∃ x ∈ r.headers, http_variable x.name = http_variable h.name ∧
      getenv (cgi_environment cfg env r) (http_variable h.name) = some x.value) ∧
    (∀ pre post : List header, r.headers = pre ++ h :: post →
      (∀ x ∈ post, http_variable x.name ≠ http_variable h.name) →
      getenv (cgi_environment cfg env r) (http_variable h.name) = some h.value) ∧
    ((env.map Prod.fst).Nodup → ((cgi_environment cfg env r).map Prod.fst).Nodup) := by
  refine ⟨?_, ?_, ?_⟩
  · obtain ⟨pre, y, post, hl, hy, hpost⟩ :=
      exists_last_of_mem (fun x : header => http_variable x.name = http_variable h.name)
        r.headers h hmem rfl
    have hlen : y.name.length = h.name.length := by
      have := congrArg List.length hy
      simpa [http_variable] using this
    have hyeq : '=' ∉ y.name := by
      intro hin
      have h1 : '=' ∈ http_variable y.name := by
        unfold http_variable
        rw [List.mem_append]
        right
        exact List.mem_map.mpr ⟨'=', hin, by decide⟩
      rw [hy] at h1
      exact eq_not_mem_http_variable _ heq h1
    refine ⟨y, by rw [hl]; simp, hy, ?_⟩
    unfold cgi_environment
    rw [hl, ← hy]
    exact getenv_export_headers_last cfg pre post y _ hyeq (by omega)
      (fun x hx => by rw [hy]; exact hpost x hx)
  · intro pre post hl hlast
    unfold cgi_environment
    rw [hl]
    exact getenv_export_headers_last cfg pre post h _ heq hfit hlast
  · intro hn
    unfold cgi_environment
    exact nodup_export_headers cfg _ _ (nodup_cgi_request_variables cfg env r hn)

/-- Witness for the amended C11: of the headers (`Accept`, `text/html`),
(`X-Test`, `value`), (`Accept`, `text/plain`), the variable `HTTP_X_TEST` holds
`value` and `HTTP_ACCEPT` holds the value of the last `Accept` header. -/
theorem cgi_environment_header_variable_witness :
    getenv (cgi_environment cfg_www []
      { request_of "" with headers :=
          [{ name := "Accept".toList, value := "text/html".toList },
           { name := "X-Test".toList, value := "value".toList },
           { name := "Accept".toList, value := "text/plain".toList }] })
      "HTTP_X_TEST".toList = some "value".toList ∧
    getenv (cgi_environment cfg_www []
      { request_of "" with headers :=
          [{ name := "Accept".toList, value := "text/html".toList },
           { name := "X-Test".toList, value := "value".toList },
           { name := "Accept".toList, value := "text/plain".toList }] })
      "HTTP_ACCEPT".toList = some "text/plain".toList :=
  ⟨(cgi_environment_header_variable cfg_www []
      { request_of "" with headers :=
          [{ name := "Accept".toList, value := "text/html".toList },
           { name := "X-Test".toList, value := "value".toList },
           { name := "Accept".toList, value := "text/plain".toList }] }
      { name := "X-Test".toList, value := "value".toList }
      (by decide) (by decide) (by decide)).2.1
      [{ name := "Accept".toList, value := "text/html".toList }]
      [{ name := "Accept".toList, value := "text/plain".toList }] (by decide) (by decide),
   (cgi_environment_header_variable cfg_www []
      { request_of "" with headers :=
          [{ name := "Accept".toList, value := "text/html".toList },
           { name := "X-Test".toList, value := "value".toList },
           { name := "Accept".toList, value := "text/plain".toList }] }
      { name := "Accept".toList, value := "text/plain".toList }
      (by decide) (by decide) (by decide)).2.1
      [{ name := "Accept".toList, value := "text/html".toList },
       { name := "X-Test".toList, value := "value".toList }]
      [] (by decide) (by decide)⟩

theorem http_variable_ne_of_head (name m : CStr) (h : m.head? ≠ some 'H') :
    http_variable name ≠ m := by
  intro e
  apply h
  rw [← e]
  rfl

theorem getenv_cgi_environment_of_head (cfg : Config) (env : Env) (r : request) (m : CStr)
    (h : m.head? ≠ some 'H') :
    getenv (cgi_environment cfg env r) m = getenv (cgi_request_variables cfg env r) m := by
  unfold cgi_environment
  exact getenv_export_headers_ne cfg r.headers _ m
    (fun x _ => http_variable_ne_of_head x.name m h)

theorem getenv_cgi_request_variables (cfg : Config) (env : Env) (r : request) :
    getenv (cgi_request_variables cfg env r) "QUERY_STRING".toList =
      some (match r.query with
        | some q => q
        | none => []) ∧
    (charAt r.host 0 ≠ '\x00' →
      getenv (cgi_request_variables cfg env r) "REMOTE_ADDR".toList = some r.host) ∧
    (charAt r.host 0 = '\x00' →
      getenv (cgi_request_variables cfg env r) "REMOTE_ADDR".toList
        = getenv env "REMOTE_ADDR".toList) ∧
    (charAt r.port 0 ≠ '\x00' →
      getenv (cgi_request_variables cfg env r) "REMOTE_PORT".toList = some r.port) ∧
    (charAt r.port 0 = '\x00' →
      getenv (cgi_request_variables cfg env r) "REMOTE_PORT".toList
        = getenv env "REMOTE_PORT".toList) := by
  obtain ⟨file, method, uri, path, query, headers, host, port⟩ := r
  unfold cgi_request_variables
  refine ⟨?_, ?_, ?_, ?_, ?_⟩
  · cases method <;> cases uri <;> cases path <;> simp only <;> split_ifs <;>
      simp only [getenv_setenv_ne _ "REMOTE_PORT".toList "QUERY_STRING".toList _ (by decide),
        getenv_setenv_ne _ "REMOTE_ADDR".toList "QUERY_STRING".toList _ (by decide),
        getenv_setenv_ne _ "SERVER_PORT".toList "QUERY_STRING".toList _ (by decide),
        getenv_setenv_ne _ "DOCUMENT_ROOT".toList "QUERY_STRING".toList _ (by decide),
        getenv_setenv_self _ "QUERY_STRING".toList _ (by decide) (by decide)]
  · intro hh
    simp only at hh
    cases method <;> cases uri <;> cases path <;>
      simp only [hh, ne_eq, not_false_eq_true, if_true] <;> split_ifs <;>
      simp only [getenv_setenv_ne _ "REMOTE_PORT".toList "REMOTE_ADDR".toList _ (by decide),
        getenv_setenv_self _ "REMOTE_ADDR".toList _ (by decide) (by decide)]
  · intro hh
    simp only at hh
    cases method <;> cases uri <;> cases path <;>
      simp only [hh, ne_eq, not_true_eq_false, if_false] <;> split_ifs <;>
      simp only [getenv_setenv_ne _ "REMOTE_PORT".toList "REMOTE_ADDR".toList _ (by decide),
        getenv_setenv_ne _ "SERVER_PORT".toList "REMOTE_ADDR".toList _ (by decide),
        getenv_setenv_ne _ "DOCUMENT_ROOT".toList "REMOTE_ADDR".toList _ (by decide),
        getenv_setenv_ne _ "QUERY_STRING".toList "REMOTE_ADDR".toList _ (by decide),
        getenv_setenv_ne _ "SCRIPT_FILENAME".toList "REMOTE_ADDR".toList _ (by decide),
        getenv_setenv_ne _ "REQUEST_URI".toList "REMOTE_ADDR".toList _ (by decide),
        getenv_setenv_ne _ "REQUEST_METHOD".toList "REMOTE_ADDR".toList _ (by decide)]
  · intro hh
    simp only at hh
    cases method <;> cases uri <;> cases path <;>
      simp only [hh, ne_eq, not_false_eq_true, if_true] <;>
      simp only [getenv_setenv_self _ "REMOTE_PORT".toList _ (by decide) (by decide)]
  · intro hh
    simp only at hh
    cases method <;> cases uri <;> cases path <;>
      simp only [hh, ne_eq, not_true_eq_false, if_false] <;> split_ifs <;>
      simp only [getenv_setenv_ne _ "REMOTE_ADDR".toList "REMOTE_PORT".toList _ (by decide),
        getenv_setenv_ne _ "SERVER_PORT".toList "REMOTE_PORT".toList _ (by decide),
        getenv_setenv_ne _ "DOCUMENT_ROOT".toList "REMOTE_PORT".toList _ (by decide),
        getenv_setenv_ne _ "QUERY_STRING".toList "REMOTE_PORT".toList _ (by decide),
        getenv_setenv_ne _ "SCRIPT_FILENAME".toList "REMOTE_PORT".toList _ (by decide),
        getenv_setenv_ne _ "REQUEST_URI".toList "REMOTE_PORT".toList _ (by decide),
        getenv_setenv_ne _ "REQUEST_METHOD".toList "REMOTE_PORT".toList _ (by decide)]

/-- Counterexample for C12: a script request from a peer whose address and port
are unavailable (`host` and `port` empty). Started with an empty environment,
the set-up leaves `REMOTE_ADDR` and `REMOTE_PORT` unset; started with
`REMOTE_ADDR=10.0.0.7`, `REMOTE_PORT=4242`, it leaves these values in place.
Neither time are they set to the empty string. -/
theorem cgi_environment_remote_counterexample :
    (request_of "GET /hello.cgi HTTP/1.0\r\n\r\n").host = [] ∧
    (request_of "GET /hello.cgi HTTP/1.0\r\n\r\n").port = [] ∧
    getenv (handle_request cfg_www fs_www fresh_process
      (request_of "GET /hello.cgi HTTP/1.0\r\n\r\n")).2.1.env "REMOTE_ADDR".toList = none ∧
    getenv (handle_request cfg_www fs_www fresh_process
      (request_of "GET /hello.cgi HTTP/1.0\r\n\r\n")).2.1.env "REMOTE_PORT".toList = none ∧
    getenv (handle_request cfg_www fs_www stale_process
      (request_of "GET /hello.cgi HTTP/1.0\r\n\r\n")).2.1.env "REMOTE_ADDR".toList
      = some "10.0.0.7".toList ∧
    getenv (handle_request cfg_www fs_www stale_process
      (request_of "GET /hello.cgi HTTP/1.0\r\n\r\n")).2.1.env "REMOTE_PORT".toList
      = some "4242".toList := by
  set_option maxRecDepth 100000 in decide

/-- C12, amended: after the environment set-up of `handle_cgi_request`,
`QUERY_STRING` is the request's query, the empty string when it has none;
`REMOTE_ADDR` and `REMOTE_PORT` are the peer address and port when these are
available (not empty), and are as the prior environment had them, unset where
it had none, when they are unavailable. -/
theorem cgi_environment_request_variables (cfg : Config) (env : Env) (r : request) :
    getenv (cgi_environment cfg env r) "QUERY_STRING".toList =
      some (match r.query with
        | some q => q
        | none => []) ∧
    (charAt r.host 0 ≠ '\x00' →
      getenv (cgi_environment cfg env r) "REMOTE_ADDR".toList = some r.host) ∧
    (r.host = [] →
      getenv (cgi_environment cfg env r) "REMOTE_ADDR".toList
        = getenv env "REMOTE_ADDR".toList) ∧
    (charAt r.port 0 ≠ '\x00' →
      getenv (cgi_environment cfg env r) "REMOTE_PORT".toList = some r.port) ∧
    (r.port = [] →
      getenv (cgi_environment cfg env r) "REMOTE_PORT".toList
        = getenv env "REMOTE_PORT".toList) := by
  have h := getenv_cgi_request_variables cfg env r
  rw [getenv_cgi_environment_of_head cfg env r _ (by decide),
    getenv_cgi_environment_of_head cfg env r "REMOTE_ADDR".toList (by decide),
    getenv_cgi_environment_of_head cfg env r "REMOTE_PORT".toList (by decide)]
  refine ⟨h.1, h.2.1, ?_, h.2.2.2.1, ?_⟩
  · intro hh
    exact h.2.2.1 (by rw [hh]; rfl)
  · intro hh
    exact h.2.2.2.2 (by rw [hh]; rfl)

/-- Witness for the amended C12: a request from `192.0.2.1` port `50000` sets
both variables; a request with an unavailable peer leaves the stale
`REMOTE_ADDR=10.0.0.7` and `REMOTE_PORT=4242` as they were. -/
theorem cgi_environment_request_variables_witness :
    (getenv (cgi_environment cfg_www stale_process.env
        (accept_request { input := [], output := [], room := none }
          (some ("192.0.2.1".toList, "50000".toList)))) "REMOTE_ADDR".toList
        = some "192.0.2.1".toList ∧
      getenv (cgi_environment cfg_www stale_process.env
        (accept_request { input := [], output := [], room := none }
          (some ("192.0.2.1".toList, "50000".toList)))) "REMOTE_PORT".toList
        = some "50000".toList) ∧
    (getenv (cgi_environment cfg_www stale_process.env (request_of ""))
        "REMOTE_ADDR".toList = getenv stale_process.env "REMOTE_ADDR".toList ∧
      getenv (cgi_environment cfg_www stale_process.env (request_of ""))
        "REMOTE_PORT".toList = getenv stale_process.env "REMOTE_PORT".toList) :=
  ⟨⟨(cgi_environment_request_variables cfg_www stale_process.env
        (accept_request { input := [], output := [], room := none }
          (some ("192.0.2.1".toList, "50000".toList)))).2.1 (by decide),
    (cgi_environment_request_variables cfg_www stale_process.env
        (accept_request { input := [], output := [], room := none }
          (some ("192.0.2.1".toList, "50000".toList)))).2.2.2.1 (by decide)⟩,
   ⟨(cgi_environment_request_variables cfg_www stale_process.env
        (request_of "")).2.2.1 (by decide),
    (cgi_environment_request_variables cfg_www stale_process.env
        (request_of "")).2.2.2.2 (by decide)⟩⟩

/-! ### Lines longer than the line buffer -/

theorem fgets_take_full (a rest : List Char) (hnl : '\n' ∉ a) :
    fgets_take a.length (a ++ rest) = (a, rest) := by
  induction a with
  | nil => simp [fgets_take]
  | cons c cs ih =>
    have hc : c ≠ '\n' := fun h => hnl (by simp [h])
    have hcs : '\n' ∉ cs := fun h => hnl (by simp [h])
    simp [fgets_take, hc, ih hcs]

theorem fgets_long_line (cfg : Config) (a rest : List Char)
    (ha : a.length + 1 = cfg.BUFSIZ) (hane : a ≠ []) (hnl : '\n' ∉ a) :
    fgets cfg.BUFSIZ (a ++ rest) = some (a, rest) := by
  unfold fgets
  rw [if_neg (by omega), if_neg (by simp [hane])]
  have : cfg.BUFSIZ - 1 = a.length := by omega
  rw [this, fgets_take_full a rest hnl]

theorem strstr_crlf_eq_none (a : CStr) (hnl : '\n' ∉ a) : strstr_crlf a = none := by
  induction a with
  | nil => rfl
  | cons c cs ih =>
    have hcs : '\n' ∉ cs := fun h => hnl (by simp [h])
    have hhead : cs.head? ≠ some '\n' := by
      cases cs with
      | nil => simp
      | cons d ds =>
        have hd : d ≠ '\n' := fun h => hnl (by simp [h])
        simpa using hd
    have hcond : ¬ (c = '\r' ∧ cs.head? = some '\n') := fun h => hhead h.2
    rw [strstr_crlf, if_neg hcond, ih hcs]
    rfl

theorem parse_request_method_long_line (cfg : Config) (r : request) (a rest : List Char)
    (ha : a.length + 1 = cfg.BUFSIZ) (hane : a ≠ []) (hnl : '\n' ∉ a) (hnul : '\x00' ∉ a)
    (hin : r.file.input = a ++ rest) :
    parse_request_method cfg r =
      match tokens a with
      | m :: u :: _ :: _ =>
        (0, { r with file := { r.file with input := rest }, method := some m,
                     uri := some (before_first '?' u),
                     query := some (after_first '?' u) })
      | _ => (-1, { r with file := { r.file with input := rest } }) := by
  unfold parse_request_method
  rw [hin, fgets_long_line cfg a rest ha hane hnl]
  simp only [cstr_of_not_mem _ hnul, strstr_crlf_eq_none _ hnl,
    (strchr_eq_none_iff a '\n').mpr hnl, sscanf_sss_of_tokens]
  match htok : tokens a with
  | [] => simp
  | [m] => simp
  | [m, u] => simp
  | m :: u :: v :: tl =>
    simp only [ne_eq, not_true_eq_false, if_false]
    cases hq : strchr u '?' with
    | none =>
      have := strchr_eq_none u '?' hq
      simp [this.1, this.2]
    | some q =>
      have := strchr_eq_some u '?' q hq
      simp [this.1, this.2]

theorem headers_of_lines_cons (l : CStr) (ls : List CStr) (hl : l ≠ []) :
    headers_of_lines (l :: ls) =
      (if ':' ∈ l then
        [{ name := trim_blank (before_first ':' l), value := trim_blank (after_first ':' l) }]
       else []) ++ headers_of_lines ls := by
  by_cases hmem : ':' ∈ l
  · simp [headers_of_lines, List.takeWhile_cons, hl, hmem]
  · simp [headers_of_lines, List.takeWhile_cons, hl, hmem]

theorem parse_request_headers_long_line (cfg : Config) (r : request) (a : List Char)
    (ls : List CStr) (tail : List Char)
    (ha : a.length + 1 = cfg.BUFSIZ) (hane : a ≠ []) (hnl : '\n' ∉ a) (hnul : '\x00' ∉ a)
    (hcr : a.getLast? ≠ some '\r')
    (hline : ∀ l ∈ ls, '\n' ∉ l ∧ '\x00' ∉ l ∧ l.getLast? ≠ some '\r')
    (hfit : ∀ l ∈ ls, l.length + 2 < cfg.BUFSIZ)
    (hend : [] ∈ ls ∨ tail = [])
    (hin : r.file.input = a ++ (header_stream ls ++ tail)) :
    (parse_request_headers cfg r).1 = 0 ∧
    (parse_request_headers cfg r).2.headers = r.headers ++ headers_of_lines (a :: ls) := by
  have hfuel : ls.length < r.file.input.length := by
    rw [hin, List.length_append]
    have h1 := length_le_header_stream ls tail
    have h2 : 0 < a.length := List.length_pos.mpr hane
    omega
  have hstrip : List.rdropWhile (fun c => c = '\n' || c = '\r') a = a := by
    rw [List.rdropWhile_eq_self_iff]
    intro hl
    have hlast : a.getLast? = some (a.getLast hl) := List.getLast?_eq_getLast _ hl
    have hmem : a.getLast hl ∈ a := List.getLast_mem hl
    have h2 : a.getLast hl ≠ '\n' := fun h => hnl (h ▸ hmem)
    have h3 : a.getLast hl ≠ '\r' := fun h => hcr (by rw [hlast, h])
    simp [h2, h3]
  have hlen : ¬ a.length = 0 := by simpa using hane
  unfold parse_request_headers
  unfold parse_request_headers_loop
  rw [hin, fgets_long_line cfg a _ ha hane hnl]
  simp only [cstr_of_not_mem _ hnul, hstrip, hlen, if_false]
  rw [← hin, headers_of_lines_cons a ls hane]
  cases hc : strchr a ':' with
  | none =>
    have hmem : ':' ∉ a := (strchr_eq_none_iff a ':').mp hc
    have := parse_request_headers_loop_lines cfg ls r.file.input.length
      { r with file := { r.file with input := header_stream ls ++ tail } }
      tail hfuel hline hfit hend rfl
    simp only [hmem, if_false, List.nil_append]
    exact this
  | some colon =>
    have hmem : ':' ∈ a := by
      by_contra h
      rw [(strchr_eq_none_iff a ':').mpr h] at hc
      exact Option.noConfusion hc
    have hsplit := strchr_eq_some a ':' colon hc
    have := parse_request_headers_loop_lines cfg ls r.file.input.length
      { r with file := { r.file with input := header_stream ls ++ tail },
               headers := r.headers ++
                 [{ name := trim_blank (before_first ':' a),
                    value := trim_blank (after_first ':' a) }] }
      tail hfuel hline hfit hend rfl
    simp only [hmem, if_true, hsplit.1, hsplit.2]
    rw [← List.append_assoc]
    exact this

theorem header_stream_long_line (a b : List Char) (ls : List CStr) (tail : List Char) :
    header_stream ((a ++ b) :: ls) ++ tail = a ++ (header_stream (b :: ls) ++ tail) := by
  rw [header_stream_cons, header_stream_cons, List.append_assoc]

/-- C13, amended: a line longer than the line buffer is not refused but read as
two lines, its first `BUFSIZ - 1` bytes `a` and the rest `b` (taken here to fit
the buffer). For a request line `a ++ b`, `parse_request` succeeds exactly when
`a` holds at least three tokens, takes the uri from `a`, and reads `b` as the
first header line. For a header line `a ++ b`, `parse_request_headers` succeeds
and leaves the headers of the lines `a` and `b`: up to two headers. -/
theorem parse_request_long_lines (cfg : Config) (a b : List Char) (ls : List CStr)
    (tail : List Char)
    (ha : a.length + 1 = cfg.BUFSIZ) (hane : a ≠ []) (hnl : '\n' ∉ a) (hnul : '\x00' ∉ a)
    (hline : ∀ l ∈ b :: ls, '\n' ∉ l ∧ '\x00' ∉ l ∧ l.getLast? ≠ some '\r')
    (hfit : ∀ l ∈ b :: ls, l.length + 2 < cfg.BUFSIZ)
    (hend : [] ∈ b :: ls ∨ tail = []) :
    (∀ r : request, r.headers = [] →
      r.file.input = header_stream ((a ++ b) :: ls) ++ tail →
      ((parse_request cfg r).1 = 0 ↔ 3 ≤ (tokens a).length) ∧
      (∀ (m u v : CStr) (more : List CStr), tokens a = m :: u :: v :: more →
        (parse_request cfg r).2.uri = some (before_first '?' u) ∧
        (parse_request cfg r).2.headers = headers_of_lines (b :: ls))) ∧
    (∀ r : request, r.headers = [] → a.getLast? ≠ some '\r' →
      r.file.input = header_stream ((a ++ b) :: ls) ++ tail →
      (parse_request_headers cfg r).1 = 0 ∧
      (parse_request_headers cfg r).2.headers = headers_of_lines (a :: b :: ls)) := by
  refine ⟨?_, ?_⟩
  · intro r hr hin
    rw [header_stream_long_line] at hin
    unfold parse_request
    rw [parse_request_method_long_line cfg r a _ ha hane hnl hnul hin]
    match htok : tokens a with
    | [] => simp
    | [m] => simp
    | [m, u] => simp
    | m :: u :: v :: tl =>
      simp only [Int.lt_irrefl, if_false, strchr_before_first]
      have hfuel : (b :: ls).length < (header_stream (b :: ls) ++ tail).length + 1 :=
        Nat.lt_succ_of_le (length_le_header_stream (b :: ls) tail)
      have hloop := parse_request_headers_loop_lines cfg (b :: ls)
        ((header_stream (b :: ls) ++ tail).length + 1)
        { r with file := { r.file with input := header_stream (b :: ls) ++ tail },
                 method := some m, uri := some (before_first '?' u),
                 query := some (after_first '?' u), path := some (before_first '?' u) }
        tail hfuel hline hfit hend rfl
      have hsame := parse_request_headers_loop_same cfg
        ((header_stream (b :: ls) ++ tail).length + 1)
        { r with file := { r.file with input := header_stream (b :: ls) ++ tail },
                 method := some m, uri := some (before_first '?' u),
                 query := some (after_first '?' u), path := some (before_first '?' u) }
      unfold parse_request_headers
      simp only [hloop.1, Int.lt_irrefl, if_false]
      refine ⟨by simp, ?_⟩
      intro m2 u2 v2 more h
      simp only [List.cons.injEq] at h
      obtain ⟨rfl, rfl, rfl, rfl⟩ := h
      refine ⟨hsame.2.1, ?_⟩
      rw [hloop.2]
      simp [hr]
  · intro r hr hcr hin
    rw [header_stream_long_line] at hin
    have h := parse_request_headers_long_line cfg r a (b :: ls) tail ha hane hnl hnul hcr
      hline hfit hend hin
    refine ⟨h.1, ?_⟩
    rw [h.2, hr, List.nil_append]

/-- Witness for the amended C13, with the line buffer of 256 bytes: the
request line `long_request_line` is accepted on its first 255 bytes and its
rest is read as the header `X-Admin`; the header line `long_header_line` is
read as the two lines `X-Long: aaa...` and `Injected: 1`. -/
theorem parse_request_long_lines_witness :
    ((parse_request cfg_min
        (request_of_bytes (header_stream [long_request_line, []]))).1 = 0 ↔
      3 ≤ (tokens (long_request_line.take 255)).length) ∧
    (parse_request_headers cfg_min
        (request_of_bytes (header_stream [long_header_line, []]))).2.headers
      = headers_of_lines [long_header_line.take 255, long_header_line.drop 255, []] :=
  ⟨((parse_request_long_lines cfg_min (long_request_line.take 255)
      (long_request_line.drop 255) [[]] []
      (by set_option maxRecDepth 1000000 in decide)
      (by set_option maxRecDepth 1000000 in decide)
      (by set_option maxRecDepth 1000000 in decide)
      (by set_option maxRecDepth 1000000 in decide)
      (by set_option maxRecDepth 1000000 in decide)
      (by set_option maxRecDepth 1000000 in decide)
      (by set_option maxRecDepth 1000000 in decide)).1
      (request_of_bytes (header_stream [long_request_line, []]))
      (by set_option maxRecDepth 1000000 in decide)
      (by set_option maxRecDepth 1000000 in decide)).1,
   ((parse_request_long_lines cfg_min (long_header_line.take 255)
      (long_header_line.drop 255) [[]] []
      (by set_option maxRecDepth 1000000 in decide)
      (by set_option maxRecDepth 1000000 in decide)
      (by set_option maxRecDepth 1000000 in decide)
      (by set_option maxRecDepth 1000000 in decide)
      (by set_option maxRecDepth 1000000 in decide)
      (by set_option maxRecDepth 1000000 in decide)
      (by set_option maxRecDepth 1000000 in decide)).2
      (request_of_bytes (header_stream [long_header_line, []]))
      (by set_option maxRecDepth 1000000 in decide)
      (by set_option maxRecDepth 1000000 in decide)
      (by set_option maxRecDepth 1000000 in decide)).2⟩

/-- Counterexample for C13, with the line buffer of 256 bytes: the request line
`long_request_line`, of 267 bytes, is not refused: `parse_request` succeeds on
its first 255 bytes and reads the rest, `X-Admin: yes`, as a header; and the
header line `long_header_line`, of 266 bytes, gives the two headers `X-Long`
and `Injected`. -/
theorem parse_request_long_line_counterexample :
    long_request_line.length = 267 ∧
    (parse_request cfg_min
      (request_of_bytes (long_request_line ++ "\r\n\r\n".toList))).1 = 0 ∧
    (parse_request cfg_min
      (request_of_bytes (long_request_line ++ "\r\n\r\n".toList))).2.uri = some "/".toList ∧
    (parse_request cfg_min
      (request_of_bytes (long_request_line ++ "\r\n\r\n".toList))).2.headers
      = [{ name := "X-Admin".toList, value := "yes".toList }] ∧
    long_header_line.length = 266 ∧
    (parse_request cfg_min
      (request_of_bytes ("GET / HTTP/1.0\r\n".toList ++ long_header_line ++
        "\r\n\r\n".toList))).1 = 0 ∧
    (parse_request cfg_min
      (request_of_bytes ("GET / HTTP/1.0\r\n".toList ++ long_header_line ++
        "\r\n\r\n".toList))).2.headers
      = [{ name := "X-Long".toList, value := List.replicate 247 'a' },
         { name := "Injected".toList, value := "1".toList }] := by
  set_option maxRecDepth 1000000 in decide

/-! ### Two requests in one process -/

theorem handle_error_process (p q : Process) (r : request) (status : http_status)
    (henv : p.env = q.env) :
    (handle_error p r status).1 = (handle_error q r status).1 ∧
    (handle_error p r status).2.1.env = (handle_error q r status).2.1.env ∧
    (handle_error p r status).2.2 = (handle_error q r status).2.2 :=
  ⟨rfl, henv, rfl⟩

theorem handle_browse_request_process (fs : FileSystem) (p q : Process) (r : request)
    (henv : p.env = q.env) :
    (handle_browse_request fs p r).1 = (handle_browse_request fs q r).1 ∧
    (handle_browse_request fs p r).2.1.env = (handle_browse_request fs q r).2.1.env ∧
    (handle_browse_request fs p r).2.2 = (handle_browse_request fs q r).2.2 := by
  unfold handle_browse_request
  cases hs : r.path.bind (scandir fs) with
  | none => exact ⟨rfl, henv, rfl⟩
  | some entries => exact ⟨rfl, henv, rfl⟩

theorem handle_file_request_process (cfg : Config) (fs : FileSystem) (p q : Process)
    (r : request) (henv : p.env = q.env) :
    (handle_file_request cfg fs p r).1 = (handle_file_request cfg fs q r).1 ∧
    (handle_file_request cfg fs p r).2.1.env = (handle_file_request cfg fs q r).2.1.env ∧
    (handle_file_request cfg fs p r).2.2 = (handle_file_request cfg fs q r).2.2 := by
  unfold handle_file_request
  cases hp : r.path with
  | none => exact ⟨rfl, henv, rfl⟩
  | some path =>
    simp only
    cases hf : fs.fopen path with
    | none => exact ⟨rfl, henv, rfl⟩
    | some content =>
      simp only
      cases hc : copy_chunks cfg (content.length + 1) content
          (fprintf (fprintf (fprintf r.file
            ("HTTP/1.0 ".toList ++ http_status_string http_status.HTTP_STATUS_OK ++
              "\r\n".toList))
            ("Content-Type: ".toList ++ determine_mimetype cfg fs path ++ "\r\n".toList))
            "\r\n".toList) with
      | mk ok f1 =>
        cases ok with
        | false => exact ⟨rfl, henv, rfl⟩
        | true => exact ⟨rfl, henv, rfl⟩

theorem handle_cgi_request_process (cfg : Config) (fs : FileSystem) (p q : Process)
    (r : request) (henv : p.env = q.env) :
    (handle_cgi_request cfg fs p r).1 = (handle_cgi_request cfg fs q r).1 ∧
    (handle_cgi_request cfg fs p r).2.1.env = (handle_cgi_request cfg fs q r).2.1.env ∧
    (handle_cgi_request cfg fs p r).2.2 = (handle_cgi_request cfg fs q r).2.2 := by
  unfold handle_cgi_request
  simp only [henv]
  cases hb : r.path.bind (fun path => fs.popen path (cgi_environment cfg q.env r)) with
  | none => exact ⟨rfl, rfl, rfl⟩
  | some out =>
    simp only
    cases hc : copy_chunks cfg (out.length + 1) out
        (fprintf r.file
          ("HTTP/1.0 ".toList ++ http_status_string http_status.HTTP_STATUS_OK ++
            "\r\n".toList)) with
    | mk ok f1 =>
      cases ok with
      | false => exact ⟨rfl, rfl, rfl⟩
      | true => exact ⟨rfl, rfl, rfl⟩

theorem handle_request_process (cfg : Config) (fs : FileSystem) (p q : Process)
    (r : request) (henv : p.env = q.env) :
    (handle_request cfg fs p r).1 = (handle_request cfg fs q r).1 ∧
    (handle_request cfg fs p r).2.1.env = (handle_request cfg fs q r).2.1.env ∧
    (handle_request cfg fs p r).2.2 = (handle_request cfg fs q r).2.2 := by
  unfold handle_request
  simp only
  split_ifs
  · exact handle_error_process p q _ _ henv
  · cases determine_request_path cfg fs (parse_request cfg r).2.uri with
    | none => exact handle_error_process p q _ _ henv
    | some real =>
      simp only
      cases determine_request_type fs real with
      | REQUEST_BROWSE => exact handle_browse_request_process fs p q _ henv
      | REQUEST_FILE => exact handle_file_request_process cfg fs p q _ henv
      | REQUEST_CGI => exact handle_cgi_request_process cfg fs p q _ henv
      | REQUEST_BAD => exact handle_error_process p q _ _ henv

theorem handle_browse_request_env (fs : FileSystem) (p : Process) (r : request) :
    (handle_browse_request fs p r).2.1.env = p.env := by
  unfold handle_browse_request
  cases hs : r.path.bind (scandir fs) with
  | none => rfl
  | some entries => rfl

theorem handle_file_request_env (cfg : Config) (fs : FileSystem) (p : Process)
    (r : request) : (handle_file_request cfg fs p r).2.1.env = p.env := by
  unfold handle_file_request
  cases hp : r.path with
  | none => rfl
  | some path =>
    simp only
    cases hf : fs.fopen path with
    | none => rfl
    | some content =>
      simp only
      cases hc : copy_chunks cfg (content.length + 1) content
          (fprintf (fprintf (fprintf r.file
            ("HTTP/1.0 ".toList ++ http_status_string http_status.HTTP_STATUS_OK ++
              "\r\n".toList))
            ("Content-Type: ".toList ++ determine_mimetype cfg fs path ++ "\r\n".toList))
            "\r\n".toList) with
      | mk ok f1 =>
        cases ok with
        | false => rfl
        | true => rfl

theorem handle_cgi_request_env (cfg : Config) (fs : FileSystem) (p : Process)
    (r : request) :
    (handle_cgi_request cfg fs p r).2.1.env = cgi_environment cfg p.env r ∧
    Generator.cgi ∈ (handle_cgi_request cfg fs p r).2.1.calls := by
  unfold handle_cgi_request
  simp only
  cases hb : r.path.bind (fun path => fs.popen path (cgi_environment cfg p.env r)) with
  | none => exact ⟨rfl, by simp [handle_error]⟩
  | some out =>
    simp only
    cases hc : copy_chunks cfg (out.length + 1) out
        (fprintf r.file
          ("HTTP/1.0 ".toList ++ http_status_string http_status.HTTP_STATUS_OK ++
            "\r\n".toList)) with
    | mk ok f1 =>
      cases ok with
      | false => exact ⟨rfl, by simp [handle_error]⟩
      | true => exact ⟨rfl, by simp⟩

theorem handle_request_env (cfg : Config) (fs : FileSystem) (p : Process) (r : request) :
    (Generator.cgi ∉ (handle_request cfg fs p r).2.1.calls →
      (handle_request cfg fs p r).2.1.env = p.env) ∧
    ((handle_request cfg fs p r).2.1.env = p.env ∨
      ∃ r2 : request, (handle_request cfg fs p r).2.1.env = cgi_environment cfg p.env r2) := by
  unfold handle_request
  simp only
  split_ifs
  · exact ⟨fun _ => rfl, Or.inl rfl⟩
  · cases determine_request_path cfg fs (parse_request cfg r).2.uri with
    | none => exact ⟨fun _ => rfl, Or.inl rfl⟩
    | some real =>
      simp only
      cases determine_request_type fs real with
      | REQUEST_BROWSE =>
        exact ⟨fun _ => handle_browse_request_env fs p _,
          Or.inl (handle_browse_request_env fs p _)⟩
      | REQUEST_FILE =>
        exact ⟨fun _ => handle_file_request_env cfg fs p _,
          Or.inl (handle_file_request_env cfg fs p _)⟩
      | REQUEST_CGI =>
        exact ⟨fun h => absurd (handle_cgi_request_env cfg fs p _).2 h,
          Or.inr ⟨_, (handle_cgi_request_env cfg fs p _).1⟩⟩
      | REQUEST_BAD => exact ⟨fun _ => rfl, Or.inl rfl⟩

theorem getenv_cgi_request_variables_http (cfg : Config) (env : Env) (r : request)
    (name : CStr) :
    getenv (cgi_request_variables cfg env r) (http_variable name)
      = getenv env (http_variable name) := by
  have h1 := http_variable_ne_of_head name "REQUEST_METHOD".toList (by decide)
  have h2 := http_variable_ne_of_head name "REQUEST_URI".toList (by decide)
  have h3 := http_variable_ne_of_head name "SCRIPT_FILENAME".toList (by decide)
  have h4 := http_variable_ne_of_head name "QUERY_STRING".toList (by decide)
  have h5 := http_variable_ne_of_head name "DOCUMENT_ROOT".toList (by decide)
  have h6 := http_variable_ne_of_head name "SERVER_PORT".toList (by decide)
  have h7 := http_variable_ne_of_head name "REMOTE_ADDR".toList (by decide)
  have h8 := http_variable_ne_of_head name "REMOTE_PORT".toList (by decide)
  unfold cgi_request_variables
  cases r.method <;> cases r.uri <;> cases r.path <;> simp only <;> split_ifs <;>
    simp only [getenv_setenv_ne _ _ _ _ h1, getenv_setenv_ne _ _ _ _ h2,
      getenv_setenv_ne _ _ _ _ h3, getenv_setenv_ne _ _ _ _ h4,
      getenv_setenv_ne _ _ _ _ h5, getenv_setenv_ne _ _ _ _ h6,
      getenv_setenv_ne _ _ _ _ h7, getenv_setenv_ne _ _ _ _ h8]

theorem getenv_cgi_environment_http (cfg : Config) (env : Env) (r : request) (name : CStr)
    (h : ∀ g ∈ r.headers, http_variable g.name ≠ http_variable name) :
    getenv (cgi_environment cfg env r) (http_variable name)
      = getenv env (http_variable name) := by
  unfold cgi_environment
  rw [getenv_export_headers_ne cfg r.headers _ _ h, getenv_cgi_request_variables_http]

open request_type in
theorem handle_request_script_env (cfg : Config) (fs : FileSystem) (p : Process)
    (r : request) (real : CStr) (h : answered_by_script cfg fs r real) :
    (handle_request cfg fs p r).2.1.env = cgi_environment cfg p.env (dispatched cfg r real) := by
  obtain ⟨hrc, hpath, htype⟩ := h
  unfold handle_request
  simp only [hrc, if_false, hpath, htype]
  exact (handle_cgi_request_env cfg fs p _).1

theorem handle_request_env_cases (cfg : Config) (fs : FileSystem) (p : Process)
    (r : request) :
    (handle_request cfg fs p r).2.1.env = p.env ∨
    ∃ real : CStr,
      (handle_request cfg fs p r).2.1.env = cgi_environment cfg p.env (dispatched cfg r real) := by
  unfold handle_request
  simp only
  split_ifs
  · exact Or.inl rfl
  · cases determine_request_path cfg fs (parse_request cfg r).2.uri with
    | none => exact Or.inl rfl
    | some real =>
      simp only
      cases determine_request_type fs real with
      | REQUEST_BROWSE => exact Or.inl (handle_browse_request_env fs p _)
      | REQUEST_FILE => exact Or.inl (handle_file_request_env cfg fs p _)
      | REQUEST_CGI => exact Or.inr ⟨real, (handle_cgi_request_env cfg fs p _).1⟩
      | REQUEST_BAD => exact Or.inl rfl

theorem getenv_handle_request_http (cfg : Config) (fs : FileSystem) (p : Process)
    (r : request) (name : CStr)
    (h : ∀ g ∈ (parse_request cfg r).2.headers, http_variable g.name ≠ http_variable name) :
    getenv (handle_request cfg fs p r).2.1.env (http_variable name)
      = getenv p.env (http_variable name) := by
  rcases handle_request_env_cases cfg fs p r with he | ⟨real, he⟩
  · rw [he]
  · rw [he]
    exact getenv_cgi_environment_http cfg p.env _ name h

theorem parse_request_method_peer (cfg : Config) (r : request) :
    (parse_request_method cfg r).2.host = r.host ∧
    (parse_request_method cfg r).2.port = r.port := by
  unfold parse_request_method
  cases hg : fgets cfg.BUFSIZ r.file.input with
  | none => exact ⟨rfl, rfl⟩
  | some x =>
    obtain ⟨buf, rest⟩ := x
    simp only
    split_ifs
    · exact ⟨rfl, rfl⟩
    · split <;> exact ⟨rfl, rfl⟩

theorem parse_request_peer (cfg : Config) (r : request) :
    (parse_request cfg r).2.host = r.host ∧ (parse_request cfg r).2.port = r.port := by
  have hm := parse_request_method_peer cfg r
  have hh : ∀ r2 : request, r2.host = (parse_request_method cfg r).2.host →
      r2.port = (parse_request_method cfg r).2.port →
      (parse_request_headers cfg r2).2.host = r.host ∧
      (parse_request_headers cfg r2).2.port = r.port := by
    intro r2 h1 h2
    have hsame := parse_request_headers_loop_same cfg (r2.file.input.length + 1) r2
    exact ⟨(hsame.2.2.2.2.1.trans h1).trans hm.1, (hsame.2.2.2.2.2.1.trans h2).trans hm.2⟩
  unfold parse_request
  simp only
  split_ifs
  · exact hm
  · apply hh
    · split
      · split <;> rfl
      · rfl
    · split
      · split <;> rfl
      · rfl
  · apply hh
    · split
      · split <;> rfl
      · rfl
    · split
      · split <;> rfl
      · rfl

theorem getenv_cgi_environment_remote_addr (cfg : Config) (env : Env) (r : request) :
    (charAt r.host 0 ≠ '\x00' →
      getenv (cgi_environment cfg env r) "REMOTE_ADDR".toList = some r.host) ∧
    (charAt r.host 0 = '\x00' →
      getenv (cgi_environment cfg env r) "REMOTE_ADDR".toList
        = getenv env "REMOTE_ADDR".toList) := by
  have h := getenv_cgi_request_variables cfg env r
  rw [getenv_cgi_environment_of_head cfg env r "REMOTE_ADDR".toList (by decide)]
  exact ⟨h.2.1, h.2.2.1⟩

theorem getenv_handle_request_remote_addr (cfg : Config) (fs : FileSystem) (p : Process)
    (r : request) (h : charAt r.host 0 = '\x00') :
    getenv (handle_request cfg fs p r).2.1.env "REMOTE_ADDR".toList
      = getenv p.env "REMOTE_ADDR".toList := by
  rcases handle_request_env_cases cfg fs p r with he | ⟨real, he⟩
  · rw [he]
  · rw [he]
    have hhost : (dispatched cfg r real).host = r.host := (parse_request_peer cfg r).1
    exact (getenv_cgi_environment_remote_addr cfg p.env _).2 (by rw [hhost]; exact h)

/-- Counterexample for C14: two requests for the script `env.cgi`, which
prints the variable `HTTP_X_TOKEN`; A carries the header `X-Token: secret`, B
carries no header. Handled after A, B is answered `token=secret` and its script
runs with `HTTP_X_TOKEN=secret`; handled alone from the same start state, B is
answered `token=` and the variable is not set. -/
theorem handle_request_after_request_counterexample :
    (handle_request cfg_www fs_www
      (handle_request cfg_www fs_www fresh_process
        (request_of "GET /env.cgi HTTP/1.0\r\nX-Token: secret\r\n\r\n")).2.1
      (request_of "GET /env.cgi HTTP/1.0\r\n\r\n")).2.2.file.output
      = "HTTP/1.0 200 OK\r\nContent-Type: text/plain\r\n\r\ntoken=secret".toList ∧
    (handle_request cfg_www fs_www fresh_process
      (request_of "GET /env.cgi HTTP/1.0\r\n\r\n")).2.2.file.output
      = "HTTP/1.0 200 OK\r\nContent-Type: text/plain\r\n\r\ntoken=".toList ∧
    getenv (handle_request cfg_www fs_www
      (handle_request cfg_www fs_www fresh_process
        (request_of "GET /env.cgi HTTP/1.0\r\nX-Token: secret\r\n\r\n")).2.1
      (request_of "GET /env.cgi HTTP/1.0\r\n\r\n")).2.1.env "HTTP_X_TOKEN".toList
      = some "secret".toList ∧
    getenv (handle_request cfg_www fs_www fresh_process
      (request_of "GET /env.cgi HTTP/1.0\r\n\r\n")).2.1.env "HTTP_X_TOKEN".toList
      = none := by
  set_option maxRecDepth 1000000 in decide

/-- C14, amended: two requests A and B handled one after the other by the same
process. When A is not answered by `handle_cgi_request`, B is handled exactly
as alone: same status, same stream, same environment for its script. When A is
answered by `handle_cgi_request`, the environment A leaves is the starting one
changed by the set-up of that handler for A as parsed and resolved; and the
variable exported for a header of A (the last of its name, of a name that fits
the name buffer and holds no `=`) still holds the value of that header in the
environment B ends with, the one its script is launched with, unless a header
of B is exported under the same name; so does `REMOTE_ADDR` hold the address of
the peer of A when the peer of B is not known. And B is handled as from any
state with the environment A left: the calls and status lines on record do not
count. -/
theorem handle_request_after_request (cfg : Config) (fs : FileSystem) (p : Process)
    (A B : request) :
    (Generator.cgi ∉ (handle_request cfg fs p A).2.1.calls →
      (handle_request cfg fs (handle_request cfg fs p A).2.1 B).1
        = (handle_request cfg fs p B).1 ∧
      (handle_request cfg fs (handle_request cfg fs p A).2.1 B).2.1.env
        = (handle_request cfg fs p B).2.1.env ∧
      (handle_request cfg fs (handle_request cfg fs p A).2.1 B).2.2
        = (handle_request cfg fs p B).2.2) ∧
    (∀ real : CStr, answered_by_script cfg fs A real →
      (handle_request cfg fs p A).2.1.env
        = cgi_environment cfg p.env (dispatched cfg A real) ∧
      ∀ (pre post : List header) (h : header),
        (parse_request cfg A).2.headers = pre ++ h :: post →
        '=' ∉ h.name → 5 + h.name.length < cfg.PATH_MAX →
        (∀ g ∈ post, http_variable g.name ≠ http_variable h.name) →
        (∀ g ∈ (parse_request cfg B).2.headers,
          http_variable g.name ≠ http_variable h.name) →
        getenv (handle_request cfg fs (handle_request cfg fs p A).2.1 B).2.1.env
          (http_variable h.name) = some h.value) ∧
    (∀ real : CStr, answered_by_script cfg fs A real →
      charAt A.host 0 ≠ '\x00' → charAt B.host 0 = '\x00' →
      getenv (handle_request cfg fs (handle_request cfg fs p A).2.1 B).2.1.env
        "REMOTE_ADDR".toList = some A.host) ∧
    (∀ q : Process, q.env = (handle_request cfg fs p A).2.1.env →
      (handle_request cfg fs (handle_request cfg fs p A).2.1 B).1
        = (handle_request cfg fs q B).1 ∧
      (handle_request cfg fs (handle_request cfg fs p A).2.1 B).2.1.env
        = (handle_request cfg fs q B).2.1.env ∧
      (handle_request cfg fs (handle_request cfg fs p A).2.1 B).2.2
        = (handle_request cfg fs q B).2.2) := by
  refine ⟨?_, ?_, ?_, ?_⟩
  · intro h
    exact handle_request_process cfg fs _ p B ((handle_request_env cfg fs p A).1 h)
  · intro real hA
    have henv := handle_request_script_env cfg fs p A real hA
    refine ⟨henv, ?_⟩
    intro pre post h hl heq hfit hlast hB
    rw [getenv_handle_request_http cfg fs _ B h.name hB, henv]
    unfold cgi_environment
    have hd : (dispatched cfg A real).headers = pre ++ h :: post := hl
    rw [hd]
    exact getenv_export_headers_last cfg pre post h _ heq hfit hlast
  · intro real hA hhostA hhostB
    have henv := handle_request_script_env cfg fs p A real hA
    have hhost : (dispatched cfg A real).host = A.host := (parse_request_peer cfg A).1
    rw [getenv_handle_request_remote_addr cfg fs _ B hhostB, henv, ← hhost]
    exact (getenv_cgi_environment_remote_addr cfg p.env _).1 (by rw [hhost]; exact hhostA)
  · intro q hq
    exact handle_request_process cfg fs _ q B hq.symm

/-- Witness for the amended C14: after the file request for `index.html`, the
script request for `env.cgi` is handled as alone; and after the script request
for `env.cgi` with the header `X-Token: secret`, the variable `HTTP_X_TOKEN`
holds `secret` in the environment the script of a request for `env.cgi`
without that header is launched with; and after the script request of the peer
`10.0.0.7`, `REMOTE_ADDR` holds `10.0.0.7` in the environment the script of a
request whose peer is not known is launched with. -/
theorem handle_request_after_request_witness :
    (handle_request cfg_www fs_www
      (handle_request cfg_www fs_www fresh_process
        (request_of "GET /index.html HTTP/1.0\r\n\r\n")).2.1
      (request_of "GET /env.cgi HTTP/1.0\r\n\r\n")).2.2
      = (handle_request cfg_www fs_www fresh_process
        (request_of "GET /env.cgi HTTP/1.0\r\n\r\n")).2.2 ∧
    getenv (handle_request cfg_www fs_www
      (handle_request cfg_www fs_www fresh_process
        (request_of "GET /env.cgi HTTP/1.0\r\nX-Token: secret\r\n\r\n")).2.1
      (request_of "GET /env.cgi HTTP/1.0\r\nHost: a\r\n\r\n")).2.1.env
      (http_variable "X-Token".toList) = some "secret".toList ∧
    getenv (handle_request cfg_www fs_www
      (handle_request cfg_www fs_www fresh_process
        (request_from "GET /env.cgi HTTP/1.0\r\n\r\n" "10.0.0.7" "4242")).2.1
      (request_of "GET /env.cgi HTTP/1.0\r\n\r\n")).2.1.env
      "REMOTE_ADDR".toList = some "10.0.0.7".toList :=
  ⟨((handle_request_after_request cfg_www fs_www fresh_process
      (request_of "GET /index.html HTTP/1.0\r\n\r\n")
      (request_of "GET /env.cgi HTTP/1.0\r\n\r\n")).1
      (by set_option maxRecDepth 1000000 in decide)).2.2,
   ((handle_request_after_request cfg_www fs_www fresh_process
      (request_of "GET /env.cgi HTTP/1.0\r\nX-Token: secret\r\n\r\n")
      (request_of "GET /env.cgi HTTP/1.0\r\nHost: a\r\n\r\n")).2.1
      "/srv/www/env.cgi".toList
      ⟨by set_option maxRecDepth 1000000 in decide,
       by set_option maxRecDepth 1000000 in decide, by decide⟩).2
      [] [] { name := "X-Token".toList, value := "secret".toList }
      (by set_option maxRecDepth 1000000 in decide) (by decide) (by decide)
      (by decide) (by set_option maxRecDepth 1000000 in decide),
   (handle_request_after_request cfg_www fs_www fresh_process
      (request_from "GET /env.cgi HTTP/1.0\r\n\r\n" "10.0.0.7" "4242")
      (request_of "GET /env.cgi HTTP/1.0\r\n\r\n")).2.2.1
      "/srv/www/env.cgi".toList
      ⟨by set_option maxRecDepth 1000000 in decide,
       by set_option maxRecDepth 1000000 in decide, by decide⟩
      (by decide) (by decide)⟩

/-! ### Status lines -/

theorem browse_entry_sound (uri : Option CStr) (f0 : Stream) (acc : List Char) (n : Nat)
    (f : Stream) (name : CStr) (hname : '\x00' ∉ name)
    (h : f.sound ((if listed name then browse_item (browse_link uri name) name
        else []).length + n) ∧ f.written = f0.written ++ acc) :
    (browse_entry uri f name).sound n ∧
    (browse_entry uri f name).written = f0.written ++
      (acc ++ (if listed name then browse_item (browse_link uri name) name else [])) := by
  have h1 := strcmp_eq_zero_iff name ['.'] hname (by decide)
  have h2 := strcmp_eq_zero_iff name ['.', '.'] hname (by decide)
  unfold browse_entry
  by_cases hl : listed name = true
  · have hc : ¬ (strcmp name ['.'] = 0 ∨ strcmp name ['.', '.'] = 0) := by
      rintro (e | e)
      · simp [listed, h1.mp e] at hl
      · simp [listed, h2.mp e] at hl
    rw [if_neg hc]
    simp only [hl, if_true] at h ⊢
    exact fprintf_sound f0 acc n f _ h
  · have hc : strcmp name ['.'] = 0 ∨ strcmp name ['.', '.'] = 0 := by
      by_cases hd : name = ['.']
      · exact Or.inl (h1.mpr hd)
      · by_cases hdd : name = ['.', '.']
        · exact Or.inr (h2.mpr hdd)
        · exact absurd (by simp [listed, hd, hdd]) hl
    rw [if_pos hc]
    simp only [hl] at h ⊢
    refine ⟨sound_mono _ _ _ h.1 (by omega), ?_⟩
    rw [h.2]
    simp

theorem browse_entries_sound (uri : Option CStr) (f0 : Stream) (n : Nat) :
    ∀ (entries : List CStr) (acc : List Char) (f : Stream),
      (∀ x ∈ entries, '\x00' ∉ x) →
      f.sound ((((entries.filter listed).map
          (fun x => browse_item (browse_link uri x) x)).flatten).length + n) →
      f.written = f0.written ++ acc →
      (entries.foldl (browse_entry uri) f).sound n ∧
      (entries.foldl (browse_entry uri) f).written = f0.written ++
        (acc ++ ((entries.filter listed).map
          (fun x => browse_item (browse_link uri x) x)).flatten) := by
  intro entries
  induction entries with
  | nil =>
    intro acc f _ hs hw
    simp only [List.filter_nil, List.map_nil, List.flatten_nil, List.length_nil,
      Nat.zero_add, List.foldl_nil, List.append_nil] at hs ⊢
    exact ⟨hs, hw⟩
  | cons e es ih =>
    intro acc f hnames hs hw
    have he := hnames e (List.mem_cons_self _ _)
    have hes : ∀ x ∈ es, '\x00' ∉ x := fun x hx => hnames x (List.mem_cons_of_mem _ hx)
    have hsplit : ((((e :: es).filter listed).map
        (fun x => browse_item (browse_link uri x) x)).flatten)
        = (if listed e then browse_item (browse_link uri e) e else []) ++
          (((es.filter listed).map (fun x => browse_item (browse_link uri x) x)).flatten) := by
      by_cases hl : listed e = true
      · simp [hl]
      · simp [hl]
    rw [hsplit] at hs ⊢
    rw [List.length_append, Nat.add_assoc] at hs
    have h1 := browse_entry_sound uri f0 acc _ f e he ⟨hs, hw⟩
    have h2 := ih _ _ hes h1.1 h1.2
    rw [List.foldl_cons]
    refine ⟨h2.1, ?_⟩
    rw [h2.2]
    simp only [List.append_assoc]

open http_status in
theorem handle_browse_request_sound (fs : FileSystem) (p : Process) (r : request)
    (path : CStr) (sorted : List CStr)
    (hpath : r.path = some path)
    (hscan : scandir fs path = some sorted)
    (hnames : ∀ x ∈ sorted, '\x00' ∉ x)
    (h : r.file.sound (browse_page (shown_uri r.uri)
      (((sorted.filter listed).map
        (fun x => browse_item (browse_link r.uri x) x)).flatten)).length) :
    (handle_browse_request fs p r).1 = HTTP_STATUS_OK ∧
    (handle_browse_request fs p r).2.2.file.output =
      r.file.written ++ browse_page (shown_uri r.uri)
        (((sorted.filter listed).map
          (fun x => browse_item (browse_link r.uri x) x)).flatten) := by
  have hshown : (match r.uri with
      | some uri => uri
      | none => ['/']) = shown_uri r.uri := rfl
  have h5 := fprintf_sound r.file _
    ((((sorted.filter listed).map
        (fun x => browse_item (browse_link r.uri x) x)).flatten).length +
      ("</ul>\n</body></html>\n".toList.length + 0)) _
    ("<h1>Index of ".toList ++ shown_uri r.uri ++ "</h1>\n<ul>\n".toList)
    (fprintf_sound r.file _ _ _
      ("<html><head><title>Index of ".toList ++ shown_uri r.uri ++
        "</title></head><body>\n".toList)
    (fprintf_sound r.file _ _ _ "\r\n".toList
    (fprintf_sound r.file _ _ _ "Content-Type: text/html\r\n".toList
    (fprintf_sound r.file [] _ r.file
      ("HTTP/1.0 ".toList ++ http_status_string HTTP_STATUS_OK ++ "\r\n".toList)
      ⟨sound_mono _ _ _ h (by
          have hsl : "HTTP/1.0 200 OK\r\n".toList.length
              = "HTTP/1.0 ".toList.length + "200 OK".toList.length + "\r\n".toList.length :=
            rfl
          simp only [browse_page, http_status_string, List.length_append, hsl]
          omega),
        (List.append_nil _).symm⟩))))
  have h6 := browse_entries_sound r.uri r.file _ sorted _ _ hnames h5.1 h5.2
  have h7 := fprintf_sound r.file _ 0 _ "</ul>\n</body></html>\n".toList h6
  unfold handle_browse_request
  simp only [hpath, Option.some_bind, hscan, hshown]
  refine ⟨trivial, ?_⟩
  rw [fflush_sound _ 0 h7.1, h7.2]
  simp only [browse_page, http_status_string, List.nil_append, List.append_assoc]
  rfl

open http_status in
/-- The socket stream on three requests. Nothing of the request unread and a
peer that takes the response: the 404 page goes out at the `fflush` of
`handle_error`. The blank line of the request still unread when `handle_error`
is called: every flush fails at the seek and nothing goes out. A peer that
takes 50 bytes and a file of 10 bytes: the response fits the stdio buffer, no
`fwrite` is short, and 200 is returned after one status line. -/
theorem handle_request_socket_stream :
    (handle_request cfg_www fs_www fresh_process
      (request_with_room "GET /missing.txt HTTP/1.0\r\n\r\n" 100000)).2.2.file.output
      = error_page "404 Not Found".toList "/missing.txt".toList ∧
    (handle_request cfg_www fs_www fresh_process
      (request_with_room "GET /missing.txt\r\n\r\n" 100000)).1 = HTTP_STATUS_BAD_REQUEST ∧
    (handle_request cfg_www fs_www fresh_process
      (request_with_room "GET /missing.txt\r\n\r\n" 100000)).2.2.file.output = [] ∧
    (handle_request cfg_www fs_www fresh_process
      (request_with_room "GET /index.html HTTP/1.0\r\n\r\n" 50)).1 = HTTP_STATUS_OK ∧
    (handle_request cfg_www fs_www fresh_process
      (request_with_room "GET /index.html HTTP/1.0\r\n\r\n" 50)).2.1.status_lines
      = [HTTP_STATUS_OK] := by
  set_option maxRecDepth 1000000 in decide

end Spidey
